import Mathlib

/-!
Verification development for the PN532 UART driver and its APDU emulators
(`pn532.py`).  Python byte strings are embedded as `List Nat` (each element a
byte value), `bytes`/`None` results as `Option (List Nat)`, and the serial
byte stream available before a deadline as a plain `List Nat`.  Python slice
`b[i:j]` is `(b.drop i).take (j - i)`; `x & 0xFF` on a possibly negative
Python int `0x100 - s` is `(256 - s % 256) % 256`.
-/

/-- Transport frame identifier, host to PN532 (`TFI_HOST_TO_PN532 = 0xD4`). -/
def TFI_HOST : Nat := 0xD4

/-- The fixed 6-byte ACK frame (`ACK_FRAME`). -/
def ackFrame : List Nat := [0x00, 0x00, 0xFF, 0x00, 0xFF, 0x00]

/-- Length checksum as computed in `_build_frame`: `(0x100 - length) & 0xFF`. -/
def frameLcs (length : Nat) : Nat := (256 - length % 256) % 256

/-- Data checksum as computed in `_build_frame`: `(0x100 - sum(data)) & 0xFF`. -/
def frameDcs (data : List Nat) : Nat := (256 - data.sum % 256) % 256

/-- Embedding of `PN532._build_frame(cmd, params)`: preamble, start code,
LEN, LCS, data = TFI + cmd + params, DCS, postamble. -/
def buildFrame (cmd : Nat) (params : List Nat) : List Nat :=
  let data := TFI_HOST :: cmd :: params
  0x00 :: 0x00 :: 0xFF :: data.length :: frameLcs data.length :: (data ++ [frameDcs data, 0x00])

/-- Embedding of the response-frame reading portion of `PN532._send_command`
(lines reading the 5-byte header, then `LEN+2` body bytes, then extracting
`body[:resp_len]`).  `input` is the byte stream available before the
deadline; a read that cannot be completed from it is a short read. -/
def readFrame (input : List Nat) : Option (List Nat) :=
  let header := input.take 5
  if header.length < 5 then none
  else
    let respLen := header.getD 3 0
    let body := (input.drop 5).take (respLen + 2)
    if body.length < respLen + 2 then none
    else
      let payload := body.take respLen
      if payload.length < 1 then none
      else some payload

/-- Embedding of the receive side of `PN532._send_command`: read 6 bytes and
compare with the ACK frame, then read the response frame.  Note the code
performs no LCS or DCS verification on the received frame. -/
def sendCommandRx (rx : List Nat) : Option (List Nat) :=
  if rx.take 6 ≠ ackFrame then none
  else readFrame (rx.drop 6)

/-- Parsed card data (`CardInfo`).  The Python code hex-formats these byte
fields into strings; the formatting is injective on bytes and is abstracted
here, keeping the raw bytes. -/
structure CardP where
  uid : List Nat
  atqa : List Nat
  sak : Nat
  ats : List Nat
deriving DecidableEq, Repr

/-- Instrumented embedding of `PN532._parse_14443a_target`.  Every scalar
index access `resp[i]` of the Python code is modeled as `get?`, and a
failing access (which in Python would raise `IndexError`) yields
`Except.error ()`; slices are total as in Python. -/
def parse14443aI (resp : Option (List Nat)) : Except Unit (Option CardP) :=
  match resp with
  | none => .ok none
  | some r =>
    if r.length < 3 then .ok none
    else
      match r.get? 2 with
      | none => .error ()
      | some nbTg =>
        if nbTg = 0 then .ok none
        else if r.length < 8 then .ok none
        else
          let atqa := (r.drop 4).take 2
          match r.get? 6 with
          | none => .error ()
          | some sak =>
            match r.get? 7 with
            | none => .error ()
            | some uidLen =>
              if r.length < 8 + uidLen then .ok none
              else
                let uid := (r.drop 8).take uidLen
                let offset := 8 + uidLen
                if offset < r.length then
                  match r.get? offset with
                  | none => .error ()
                  | some atsLen =>
                    let ats :=
                      if offset + atsLen ≤ r.length then
                        (r.drop (offset + 1)).take ((offset + atsLen) - (offset + 1))
                      else []
                    .ok (some ⟨uid, atqa, sak, ats⟩)
                else .ok (some ⟨uid, atqa, sak, []⟩)

/-- The parser as used by the workflows (crash marker mapped away; C10 shows
it is unreachable). -/
def parse14443a (resp : Option (List Nat)) : Option CardP :=
  match parse14443aI resp with
  | .ok c => c
  | .error _ => none

/-- The Vault application identifier (`VaultTagEmulator.VAULT_AID`). -/
def VAULT_AID : List Nat := [0xF0, 0x01, 0x02, 0x03, 0x04, 0x05]

/-- Size of the Vault buffer (`VaultTagEmulator.BUFFER_SIZE`). -/
def BUFFER_SIZE : Nat := 256

/-- State of `VaultTagEmulator`: the flat 256-byte buffer and the selection
flag. -/
structure VaultState where
  buffer : List Nat
  selected : Bool
deriving DecidableEq, Repr

/-- Embedding of `VaultTagEmulator.__init__`: a zeroed 256-byte buffer whose
prefix is overwritten with the initial data, truncated to 256 bytes. -/
def vaultInit (initial : List Nat) : VaultState :=
  ⟨initial.take BUFFER_SIZE ++ List.replicate (BUFFER_SIZE - initial.length) 0, false⟩

/-- Embedding of `VaultTagEmulator._handle_select`. -/
def vaultSelect (st : VaultState) (apdu : List Nat) : List Nat × VaultState :=
  if apdu.length < 5 then ([0x6A, 0x82], st)
  else
    let p1 := apdu.getD 2 0
    let lc := apdu.getD 4 0
    let data := (apdu.drop 5).take lc
    if p1 = 0x04 ∧ data = VAULT_AID then ([0x90, 0x00], ⟨st.buffer, true⟩)
    else ([0x6A, 0x82], st)

/-- Embedding of `VaultTagEmulator._handle_read` (READ BINARY, 8-bit offset
in P2). -/
def vaultRead (st : VaultState) (apdu : List Nat) : List Nat × VaultState :=
  if st.selected = false then ([0x6A, 0x82], st)
  else
    let offset := apdu.getD 3 0
    let le := apdu.getD 4 0
    if offset ≥ BUFFER_SIZE then ([0x6A, 0x82], st)
    else ((st.buffer.drop offset).take le ++ [0x90, 0x00], st)

/-- Embedding of `VaultTagEmulator._handle_write` (INS `0xD0`). -/
def vaultWrite (st : VaultState) (apdu : List Nat) : List Nat × VaultState :=
  if st.selected = false then ([0x6A, 0x82], st)
  else
    let offset := apdu.getD 3 0
    if apdu.length < 5 then ([0x67, 0x00], st)
    else
      let lc := apdu.getD 4 0
      let data := (apdu.drop 5).take lc
      if offset + data.length > BUFFER_SIZE then ([0x6A, 0x82], st)
      else ([0x90, 0x00],
        ⟨st.buffer.take offset ++ data ++ st.buffer.drop (offset + data.length), st.selected⟩)

/-- Embedding of `VaultTagEmulator.handle_apdu`: dispatch on the INS byte. -/
def vaultHandle (st : VaultState) (apdu : List Nat) : List Nat × VaultState :=
  if apdu.length < 4 then ([0x6D, 0x00], st)
  else
    let ins := apdu.getD 1 0
    if ins = 0xA4 then vaultSelect st apdu
    else if ins = 0xB0 then vaultRead st apdu
    else if ins = 0xD0 then vaultWrite st apdu
    else ([0x6D, 0x00], st)

/-- The Type 4 NDEF application identifier. -/
def NDEF_AID : List Nat := [0xD2, 0x76, 0x00, 0x00, 0x85, 0x01, 0x01]

/-- State of `Type4TagEmulator`: the CC file, the NDEF file, and the selected
file (if any). -/
structure T4State where
  ccFile : List Nat
  ndefFile : List Nat
  selectedFile : Option (List Nat)
deriving DecidableEq, Repr

/-- Big-endian 16-bit encoding, as `struct.pack(">H", n)`.  Faithful for
`n ≤ 65535`; for larger `n` the Python call raises `struct.error` instead,
so theorems over NDEF message lengths carry that bound as a hypothesis. -/
def pack16 (n : Nat) : List Nat := [(n / 256) % 256, n % 256]

/-- Embedding of `Type4TagEmulator.__init__`: the NDEF file is a 2-byte
big-endian length prefix plus the message; the CC file is the fixed 15-byte
capability container with the derived max size. -/
def t4Init (msg : List Nat) : T4State :=
  let ndefFile := pack16 msg.length ++ msg
  ⟨[0x00, 0x0F, 0x20, 0x00, 0x3B, 0x00, 0x34, 0x04, 0x06, 0xE1, 0x04] ++
      pack16 ndefFile.length ++ [0x00, 0xFF],
    ndefFile, none⟩

/-- Embedding of `Type4TagEmulator._handle_select`. -/
def t4Select (st : T4State) (apdu : List Nat) : List Nat × T4State :=
  if apdu.length < 5 then ([0x6A, 0x82], st)
  else
    let p1 := apdu.getD 2 0
    let lc := apdu.getD 4 0
    let data := (apdu.drop 5).take lc
    if p1 = 0x04 then
      if data = NDEF_AID then ([0x90, 0x00], st) else ([0x6A, 0x82], st)
    else if p1 = 0x00 ∧ data.length = 2 then
      let fileId := data.getD 0 0 * 256 + data.getD 1 0
      if fileId = 0xE103 then ([0x90, 0x00], ⟨st.ccFile, st.ndefFile, some st.ccFile⟩)
      else if fileId = 0xE104 then ([0x90, 0x00], ⟨st.ccFile, st.ndefFile, some st.ndefFile⟩)
      else ([0x6A, 0x82], st)
    else ([0x6A, 0x82], st)

/-- Embedding of `Type4TagEmulator._handle_read_binary` (16-bit offset in
P1 P2). -/
def t4ReadBinary (st : T4State) (apdu : List Nat) : List Nat × T4State :=
  match st.selectedFile with
  | none => ([0x6A, 0x82], st)
  | some f =>
    let offset := apdu.getD 2 0 * 256 + apdu.getD 3 0
    let le := apdu.getD 4 0
    if offset > f.length then ([0x6A, 0x82], st)
    else ((f.drop offset).take le ++ [0x90, 0x00], st)

/-- Embedding of `Type4TagEmulator.handle_apdu`. -/
def t4Handle (st : T4State) (apdu : List Nat) : List Nat × T4State :=
  if apdu.length < 4 then ([0x6D, 0x00], st)
  else
    let ins := apdu.getD 1 0
    if ins = 0xA4 then t4Select st apdu
    else if ins = 0xB0 then t4ReadBinary st apdu
    else if ins = 0xD6 then ([0x6A, 0x82], st)
    else ([0x6D, 0x00], st)

/-- Events observable at the command layer: a `_send_command` invocation
with its command byte and parameter bytes, a DTR hard reset
(`_hard_reset`), and a full close/reopen (`_close` + `_ensure_open`). -/
inductive Ev where
  | cmd (c : Nat) (params : List Nat)
  | hardReset
  | reopen
deriving DecidableEq, Repr

/-- Device-interaction state for the workflow layer: the scripted responses
remaining (one `Option` payload per `_send_command` call, in order; an
exhausted script responds `none`) and the trace of events so far. -/
structure WState where
  script : List (Option (List Nat))
  trace : List Ev
deriving DecidableEq, Repr

/-- One `_send_command` invocation at the workflow layer: consume the next
scripted response and record the event. -/
def sendCmdW (c : Nat) (params : List Nat) (st : WState) :
    Option (List Nat) × WState :=
  match st.script with
  | [] => (none, ⟨[], st.trace ++ [Ev.cmd c params]⟩)
  | r :: rest => (r, ⟨rest, st.trace ++ [Ev.cmd c params]⟩)

/-- Embedding of `PN532._wakeup`: the sync bytes are not a command; the
sacrificial `GetFirmwareVersion` (0x02) is sent and its response
discarded. -/
def wakeupW (st : WState) : WState := (sendCmdW 0x02 [] st).2

/-- Embedding of `PN532._hard_reset` at the event level (no command is
sent). -/
def hardResetW (st : WState) : WState := ⟨st.script, st.trace ++ [Ev.hardReset]⟩

/-- Embedding of `PN532._close` followed by `PN532._ensure_open` at the
event level. -/
def reopenW (st : WState) : WState := ⟨st.script, st.trace ++ [Ev.reopen]⟩

/-- One soft-retry round of `sam_configuration`: up to `n` attempts of the
SAMConfiguration command (0x14, params 01 00), stopping at the first
non-`None` response. -/
def softTries : Nat → WState → Option (List Nat) × WState
  | 0, st => (none, st)
  | n + 1, st =>
    match sendCmdW 0x14 [0x01, 0x00] st with
    | (some r, st') => (some r, st')
    | (none, st') => softTries n st'

/-- Embedding of `PN532.sam_configuration`: `retries` soft attempts, then a
hard DTR reset plus re-wake and `retries` more attempts, then a full
close/reopen plus re-wake and `retries` more attempts. -/
def samConfigurationW (retries : Nat) (st : WState) :
    Option (List Nat) × WState :=
  match softTries retries st with
  | (some r, st') => (some r, st')
  | (none, st') =>
    let st2 := wakeupW (hardResetW st')
    match softTries retries st2 with
    | (some r, st3) => (some r, st3)
    | (none, st3) =>
      let st4 := wakeupW (reopenW st3)
      softTries retries st4

/-- Outcome of one `InDataExchange` attempt inside `_exchange_apdu`. -/
inductive StepRes where
  | ok (sw1 sw2 : Nat) (payload : List Nat)
  | noResp
  | badStatus
  | short
deriving DecidableEq, Repr

/-- Embedding of the per-attempt body of `PN532._exchange_apdu`: check the
response and status byte, apply the ISO-DEP CID-leak workaround, and
extract SW1/SW2 and the payload. -/
def exchangeStep (resp : Option (List Nat)) : StepRes :=
  match resp with
  | none => .noResp
  | some r =>
    if r.length < 3 then .noResp
    else if r.getD 2 0 ≠ 0 then .badStatus
    else
      let data := r.drop 3
      let data :=
        if 3 ≤ data.length ∧ data.getD 0 0 &&& 0xE8 = 0x08 then data.drop 2 else data
      if 2 ≤ data.length then
        .ok (data.getD (data.length - 2) 0) (data.getD (data.length - 1) 0)
          (data.take (data.length - 2))
      else .short

/-- Result of `_exchange_apdu`: a status-word triple, or a raised
`RuntimeError` (no response, error status after the retry, or short
response after the retry). -/
inductive ExRes where
  | ok (sw1 sw2 : Nat) (payload : List Nat)
  | err
deriving DecidableEq, Repr

/-- Embedding of `PN532._exchange_apdu` with the default `retries=1`: up to
two `InDataExchange` (0x40) attempts; a missing response raises at once; an
error status or short response is retried once and then raises. -/
def exchangeApduW (tg : Nat) (apdu : List Nat) (st : WState) : ExRes × WState :=
  let a1 := sendCmdW 0x40 (tg :: apdu) st
  match exchangeStep a1.1 with
  | .ok s1 s2 p => (.ok s1 s2 p, a1.2)
  | .noResp => (.err, a1.2)
  | _ =>
    let a2 := sendCmdW 0x40 (tg :: apdu) a1.2
    match exchangeStep a2.1 with
    | .ok s1 s2 p => (.ok s1 s2 p, a2.2)
    | _ => (.err, a2.2)

/-- The shared workflow postamble: `in_release` (0x44, target 0) followed by
`power_down` (0x16, param F0). -/
def postambleW (st : WState) : WState :=
  (sendCmdW 0x16 [0xF0] (sendCmdW 0x44 [0x00] st).2).2

/-- The SELECT APDU for the Vault AID built by `read_vault_tag` and
`write_vault_tag`. -/
def vaultAidSelectApdu : List Nat :=
  [0x00, 0xA4, 0x04, 0x00, 0x06, 0xF0, 0x01, 0x02, 0x03, 0x04, 0x05, 0x00]

/-- The SELECT APDU for the NDEF application AID built by `read_ndef_tag`
and `write_ndef_tag`. -/
def ndefAidSelectApdu : List Nat :=
  [0x00, 0xA4, 0x04, 0x00, 0x07, 0xD2, 0x76, 0x00, 0x00, 0x85, 0x01, 0x01, 0x00]

/-- The SELECT-CC-file APDU (`00 A4 00 0C 02 E1 03`). -/
def selectCcApdu : List Nat := [0x00, 0xA4, 0x00, 0x0C, 0x02, 0xE1, 0x03]

/-- The READ-CC APDU (`00 B0 00 00 0F`). -/
def readCcApdu : List Nat := [0x00, 0xB0, 0x00, 0x00, 0x0F]

/-- The shared workflow preamble of `read_vault_tag`, `write_vault_tag`,
`read_ndef_tag` and `write_ndef_tag` (each inlines this sequence): wake-up,
`sam_configuration`, the two `rf_configuration` calls, then
`InListPassiveTarget` and the 14443-A parse; on SAM failure return
`onSamFail`, on no card run `power_down` and return `onNoCard`, otherwise
run `body`. -/
def preambleThen {X : Type} (onSamFail onNoCard : X)
    (body : CardP → WState → X × WState) (st0 : WState) : X × WState :=
  let st := wakeupW st0
  match samConfigurationW 3 st with
  | (none, st) => (onSamFail, st)
  | (some _, st) =>
    let st := (sendCmdW 0x32 [0x05, 0xFF, 0x01, 0xFF] st).2
    let st := (sendCmdW 0x32 [0x02, 0x00, 0x0B, 0x0E] st).2
    let a := sendCmdW 0x4A [0x01, 0x00] st
    match parse14443a a.1 with
    | none => (onNoCard, (sendCmdW 0x16 [0xF0] a.2).2)
    | some card => body card a.2

/-- Result of `read_vault_tag`. -/
inductive VaultReadRes where
  | samFailed
  | noCard
  | selectRejected (sw1 sw2 : Nat)
  | exchangeErr
  | success (payload : List Nat)
deriving DecidableEq, Repr

/-- Embedding of `PN532.read_vault_tag`: preamble, SELECT by the Vault AID,
READ BINARY, postamble.  A `RuntimeError` raised by `_exchange_apdu` is
caught by the generic handler and returned as an error with no postamble;
the success result does not check the READ status word (the code does
not). -/
def readVaultBody (ro rl : Nat) (_card : CardP) (st : WState) : VaultReadRes × WState :=
  match exchangeApduW 0x01 vaultAidSelectApdu st with
  | (.err, st) => (.exchangeErr, st)
  | (.ok s1 s2 _, st) =>
    if s1 = 0x90 ∧ s2 = 0x00 then
      match exchangeApduW 0x01 [0x00, 0xB0, 0x00, ro % 256, rl % 256] st with
      | (.err, st) => (.exchangeErr, st)
      | (.ok _ _ payload, st) => (.success payload, postambleW st)
    else (.selectRejected s1 s2, postambleW st)

/-- Embedding of `PN532.read_vault_tag` as preamble plus body. -/
def readVaultTagW (ro rl : Nat) (st0 : WState) : VaultReadRes × WState :=
  preambleThen VaultReadRes.samFailed VaultReadRes.noCard (readVaultBody ro rl) st0

/-- Result of `write_vault_tag`. -/
inductive VaultWriteRes where
  | samFailed
  | noCard
  | selectRejected (sw1 sw2 : Nat)
  | exchangeErr
  | writeFailed (sw1 sw2 : Nat)
  | success (n : Nat)
deriving DecidableEq, Repr

/-- Embedding of `PN532.write_vault_tag`: preamble, SELECT by the Vault
AID, WRITE (INS D0), postamble (run before the WRITE status check, as in
the code).  Faithful for `data.length ≤ 255`: for longer data the source
raises `ValueError` at the `bytes([...])` Lc byte and its generic handler
returns without the postamble, so theorems over this body carry that
bound as a hypothesis. -/
def writeVaultBody (off : Nat) (data : List Nat) (_card : CardP) (st : WState) :
    VaultWriteRes × WState :=
  match exchangeApduW 0x01 vaultAidSelectApdu st with
  | (.err, st) => (.exchangeErr, st)
  | (.ok s1 s2 _, st) =>
    if s1 = 0x90 ∧ s2 = 0x00 then
      match exchangeApduW 0x01
          ([0x00, 0xD0, 0x00, off % 256, data.length] ++ data) st with
      | (.err, st) => (.exchangeErr, st)
      | (.ok s1 s2 _, st) =>
        let st := postambleW st
        if s1 = 0x90 ∧ s2 = 0x00 then (.success data.length, st)
        else (.writeFailed s1 s2, st)
    else (.selectRejected s1 s2, postambleW st)

/-- Embedding of `PN532.write_vault_tag` as preamble plus body. -/
def writeVaultTagW (off : Nat) (data : List Nat) (st0 : WState) : VaultWriteRes × WState :=
  preambleThen VaultWriteRes.samFailed VaultWriteRes.noCard (writeVaultBody off data) st0

/-- Result of `scan_type_a`. -/
inductive ScanRes where
  | samFailed
  | done (cards : List CardP)
deriving DecidableEq, Repr

/-- Embedding of `PN532.scan_type_a`: wake-up, `sam_configuration`,
`get_firmware_version`, the two `rf_configuration` calls,
`InListPassiveTarget`, parse; `in_release` only when a card was found,
`power_down` always. -/
def scanW (st0 : WState) : ScanRes × WState :=
  let st := wakeupW st0
  match samConfigurationW 3 st with
  | (none, st) => (.samFailed, st)
  | (some _, st) =>
    let st := (sendCmdW 0x02 [] st).2
    let st := (sendCmdW 0x32 [0x05, 0xFF, 0x01, 0xFF] st).2
    let st := (sendCmdW 0x32 [0x02, 0x00, 0x0B, 0x0E] st).2
    let a := sendCmdW 0x4A [0x01, 0x00] st
    match parse14443a a.1 with
    | none => (.done [], (sendCmdW 0x16 [0xF0] a.2).2)
    | some card =>
      (.done [card], (sendCmdW 0x16 [0xF0] (sendCmdW 0x44 [0x00] a.2).2).2)

/-- Result of the chunked NDEF read loop in `read_ndef_tag`: a raised
exchange error, or the collected bytes (a non-`90 00` status word breaks
the loop and keeps what was read so far, as in the code). -/
inductive ChunkRes where
  | err
  | done (acc : List Nat)
deriving DecidableEq, Repr

/-- Embedding of the chunked READ BINARY loop of `read_ndef_tag` (chunk
size `min remaining 59`).  The Python loop does not terminate when a card
keeps answering `90 00` with empty chunks; `fuel` bounds the iterations
(callers pass `msgLen + 1`, enough for every terminating run). -/
def readChunksW (fuel offset remaining : Nat) (acc : List Nat) (st : WState) :
    ChunkRes × WState :=
  match fuel with
  | 0 => (.done acc, st)
  | fuel + 1 =>
    if remaining = 0 then (.done acc, st)
    else
      let chunkSize := min remaining 59
      match exchangeApduW 0x01
          [0x00, 0xB0, (offset / 256) % 256, offset % 256, chunkSize] st with
      | (.err, st) => (.err, st)
      | (.ok s1 s2 chunk, st) =>
        if s1 = 0x90 ∧ s2 = 0x00 then
          readChunksW fuel (offset + chunk.length) (remaining - chunk.length)
            (acc ++ chunk) st
        else (.done acc, st)

/-- Result of `read_ndef_tag`. -/
inductive NdefReadRes where
  | samFailed
  | noCard
  | selectAidFailed (sw1 sw2 : Nat)
  | selectCcFailed (sw1 sw2 : Nat)
  | readCcFailed
  | selectNdefFailed (sw1 sw2 : Nat)
  | readLenFailed
  | success (raw : List Nat)
  | exchangeErr
deriving DecidableEq, Repr

/-- Embedding of `PN532.read_ndef_tag`: preamble, SELECT NDEF AID, SELECT
CC, READ CC (15 bytes required), SELECT the NDEF file named by CC bytes
9-10, READ the 2-byte length, then the chunked body read; postamble on
every path except a raised `_exchange_apdu` error (caught by the
`except RuntimeError` handler, which returns directly). -/
def readNdefBody (_card : CardP) (st : WState) : NdefReadRes × WState :=
      match exchangeApduW 0x01 ndefAidSelectApdu st with
      | (.err, st) => (.exchangeErr, st)
      | (.ok s1 s2 _, st) =>
        if ¬(s1 = 0x90 ∧ s2 = 0x00) then (.selectAidFailed s1 s2, postambleW st)
        else
          match exchangeApduW 0x01 selectCcApdu st with
          | (.err, st) => (.exchangeErr, st)
          | (.ok s1 s2 _, st) =>
            if ¬(s1 = 0x90 ∧ s2 = 0x00) then (.selectCcFailed s1 s2, postambleW st)
            else
              match exchangeApduW 0x01 readCcApdu st with
              | (.err, st) => (.exchangeErr, st)
              | (.ok s1 s2 cc, st) =>
                if ¬(s1 = 0x90 ∧ s2 = 0x00 ∧ 15 ≤ cc.length) then
                  (.readCcFailed, postambleW st)
                else
                  match exchangeApduW 0x01
                      [0x00, 0xA4, 0x00, 0x0C, 0x02, cc.getD 9 0, cc.getD 10 0] st with
                  | (.err, st) => (.exchangeErr, st)
                  | (.ok s1 s2 _, st) =>
                    if ¬(s1 = 0x90 ∧ s2 = 0x00) then
                      (.selectNdefFailed s1 s2, postambleW st)
                    else
                      match exchangeApduW 0x01 [0x00, 0xB0, 0x00, 0x00, 0x02] st with
                      | (.err, st) => (.exchangeErr, st)
                      | (.ok s1 s2 lenData, st) =>
                        if ¬(s1 = 0x90 ∧ s2 = 0x00 ∧ 2 ≤ lenData.length) then
                          (.readLenFailed, postambleW st)
                        else
                          let msgLen := lenData.getD 0 0 * 256 + lenData.getD 1 0
                          if msgLen = 0 then (.success [], postambleW st)
                          else
                            match readChunksW (msgLen + 1) 2 msgLen [] st with
                            | (.err, st) => (.exchangeErr, st)
                            | (.done acc, st) => (.success acc, postambleW st)

/-- Embedding of `PN532.read_ndef_tag` as preamble plus body. -/
def readNdefTagW (st0 : WState) : NdefReadRes × WState :=
  preambleThen NdefReadRes.samFailed NdefReadRes.noCard readNdefBody st0

/-- Result of the chunked UPDATE BINARY loop in `write_ndef_tag`. -/
inductive WChunkRes where
  | err
  | failedSW (sw1 sw2 : Nat)
  | done
deriving DecidableEq, Repr

/-- Embedding of the chunked UPDATE BINARY loop of `write_ndef_tag` (chunk
size `maxWrite = min MLc 52`).  The Python loop does not terminate when
`maxWrite = 0`; `fuel` bounds the iterations (callers pass
`len(msg) + 1`, enough for every terminating run). -/
def writeChunksW (fuel maxWrite offset : Nat) (remaining : List Nat) (st : WState) :
    WChunkRes × WState :=
  match fuel with
  | 0 => (.done, st)
  | fuel + 1 =>
    match remaining with
    | [] => (.done, st)
    | _ =>
      let chunk := remaining.take maxWrite
      let rest := remaining.drop maxWrite
      match exchangeApduW 0x01
          ([0x00, 0xD6, (offset / 256) % 256, offset % 256, chunk.length] ++ chunk) st with
      | (.err, st) => (.err, st)
      | (.ok s1 s2 _, st) =>
        if s1 = 0x90 ∧ s2 = 0x00 then
          writeChunksW fuel maxWrite (offset + chunk.length) rest st
        else (.failedSW s1 s2, st)

/-- Result of `write_ndef_tag`. -/
inductive NdefWriteRes where
  | samFailed
  | noCard
  | selectAidFailed (sw1 sw2 : Nat)
  | selectCcFailed (sw1 sw2 : Nat)
  | readCcFailed
  | writeDenied (wa : Nat)
  | tooLarge
  | selectNdefFailed (sw1 sw2 : Nat)
  | updateFailed (sw1 sw2 : Nat)
  | setLengthFailed (sw1 sw2 : Nat)
  | success (n : Nat)
  | exchangeErr
deriving DecidableEq, Repr

/-- Embedding of `write_ndef_tag` from the point where the CC bytes have
been read successfully: check CC byte 14 (write access), check the size
bound, SELECT the NDEF file, UPDATE BINARY the zero length, write the body
in chunks, UPDATE BINARY the real length (postamble before its status
check, as in the code).  Faithful for `msg.length ≤ 65535`: for longer
messages the source raises `struct.error` at `struct.pack(">H", ...)`
before this stage and its generic handler returns without the postamble,
so theorems over this stage carry that bound as a hypothesis. -/
def writeNdefAfterCC (msg cc : List Nat) (st : WState) : NdefWriteRes × WState :=
  let maxSize := cc.getD 11 0 * 256 + cc.getD 12 0
  let wa := cc.getD 14 0
  if wa ≠ 0 then (.writeDenied wa, postambleW st)
  else if maxSize < 2 + msg.length then (.tooLarge, postambleW st)
  else
    match exchangeApduW 0x01
        [0x00, 0xA4, 0x00, 0x0C, 0x02, cc.getD 9 0, cc.getD 10 0] st with
    | (.err, st) => (.exchangeErr, st)
    | (.ok s1 s2 _, st) =>
      if ¬(s1 = 0x90 ∧ s2 = 0x00) then (.selectNdefFailed s1 s2, postambleW st)
      else
        match exchangeApduW 0x01 [0x00, 0xD6, 0x00, 0x00, 0x02, 0x00, 0x00] st with
        | (.err, st) => (.exchangeErr, st)
        | (.ok s1 s2 _, st) =>
          if ¬(s1 = 0x90 ∧ s2 = 0x00) then (.updateFailed s1 s2, postambleW st)
          else
            let maxWrite := min (cc.getD 5 0 * 256 + cc.getD 6 0) 52
            match writeChunksW (msg.length + 1) maxWrite 2 msg st with
            | (.err, st) => (.exchangeErr, st)
            | (.failedSW s1 s2, st) => (.updateFailed s1 s2, postambleW st)
            | (.done, st) =>
              match exchangeApduW 0x01
                  ([0x00, 0xD6, 0x00, 0x00, 0x02] ++ pack16 msg.length) st with
              | (.err, st) => (.exchangeErr, st)
              | (.ok s1 s2 _, st) =>
                let st := postambleW st
                if ¬(s1 = 0x90 ∧ s2 = 0x00) then (.setLengthFailed s1 s2, st)
                else (.success msg.length, st)

/-- Embedding of `PN532.write_ndef_tag`: preamble, SELECT NDEF AID, SELECT
CC, READ CC (15 bytes required), then `writeNdefAfterCC`. -/
def writeNdefBody (msg : List Nat) (_card : CardP) (st : WState) : NdefWriteRes × WState :=
      match exchangeApduW 0x01 ndefAidSelectApdu st with
      | (.err, st) => (.exchangeErr, st)
      | (.ok s1 s2 _, st) =>
        if ¬(s1 = 0x90 ∧ s2 = 0x00) then (.selectAidFailed s1 s2, postambleW st)
        else
          match exchangeApduW 0x01 selectCcApdu st with
          | (.err, st) => (.exchangeErr, st)
          | (.ok s1 s2 _, st) =>
            if ¬(s1 = 0x90 ∧ s2 = 0x00) then (.selectCcFailed s1 s2, postambleW st)
            else
              match exchangeApduW 0x01 readCcApdu st with
              | (.err, st) => (.exchangeErr, st)
              | (.ok s1 s2 cc, st) =>
                if ¬(s1 = 0x90 ∧ s2 = 0x00 ∧ 15 ≤ cc.length) then
                  (.readCcFailed, postambleW st)
                else writeNdefAfterCC msg cc st

/-- Embedding of `PN532.write_ndef_tag` as preamble plus body. -/
def writeNdefTagW (msg : List Nat) (st0 : WState) : NdefWriteRes × WState :=
  preambleThen NdefWriteRes.samFailed NdefWriteRes.noCard (writeNdefBody msg) st0

/-- Recognizer for the `InListPassiveTarget` command event. -/
def isInListEv : Ev → Bool
  | .cmd c _ => c == 0x4A
  | _ => false

/-- Recognizer for the postamble command events `InRelease` and
`PowerDown`. -/
def isPostEv : Ev → Bool
  | .cmd c _ => c == 0x44 || c == 0x16
  | _ => false

/-- Recognizer for an `InDataExchange` event carrying an UPDATE BINARY
(INS D6) APDU: the `InDataExchange` parameters are `Tg` followed by the
APDU, so the INS byte is at index 2. -/
def isUpdateBinaryEv : Ev → Bool
  | .cmd c p => c == 0x40 && p.getD 2 0 == 0xD6
  | _ => false

/-- The pairing property of C3 as a computable check: every
`InListPassiveTarget` event is followed, later in the trace, by an
`InRelease` or `PowerDown` event. -/
def pairedB : List Ev → Bool
  | [] => true
  | e :: rest => ((!isInListEv e) || rest.any isPostEv) && pairedB rest

/-- A good trace extension for a workflow body: free of
`InListPassiveTarget` events and containing a postamble event. -/
def GoodDelta (d : List Ev) : Prop :=
  (∀ e ∈ d, isInListEv e = false) ∧ ∃ e ∈ d, isPostEv e = true

/-- C1: for every command byte and parameter string of length at most 253,
the frame built by `_build_frame` parses back (through the response-frame
reader) to exactly the TFI, command and parameters, and both zero-sum
checksum invariants hold with `LEN = 2 + len(params)`. -/
theorem c1_frame_roundtrip (cmd : Nat) (params : List Nat)
    (hc : cmd ≤ 255) (hp : params.length ≤ 253) :
    readFrame (buildFrame cmd params) = some (TFI_HOST :: cmd :: params) ∧
    ((2 + params.length) + frameLcs (2 + params.length)) % 256 = 0 ∧
    ((TFI_HOST :: cmd :: params).sum + frameDcs (TFI_HOST :: cmd :: params)) % 256 = 0 := by
  refine ⟨?_, ?_, ?_⟩
  · have hlen : (TFI_HOST :: cmd :: params).length = 2 + params.length := by
      simp [List.length_cons]; omega
    simp only [readFrame, buildFrame]
    have htake5 : (0x00 :: 0x00 :: 0xFF :: (TFI_HOST :: cmd :: params).length ::
        frameLcs (TFI_HOST :: cmd :: params).length ::
        ((TFI_HOST :: cmd :: params) ++ [frameDcs (TFI_HOST :: cmd :: params), 0x00])).take 5 =
        [0x00, 0x00, 0xFF, (TFI_HOST :: cmd :: params).length,
          frameLcs (TFI_HOST :: cmd :: params).length] := by
      simp [List.take]
    have hdrop5 : (0x00 :: 0x00 :: 0xFF :: (TFI_HOST :: cmd :: params).length ::
        frameLcs (TFI_HOST :: cmd :: params).length ::
        ((TFI_HOST :: cmd :: params) ++ [frameDcs (TFI_HOST :: cmd :: params), 0x00])).drop 5 =
        (TFI_HOST :: cmd :: params) ++ [frameDcs (TFI_HOST :: cmd :: params), 0x00] := by
      simp [List.drop]
    rw [htake5, hdrop5]
    have hblen : ((TFI_HOST :: cmd :: params) ++
        [frameDcs (TFI_HOST :: cmd :: params), 0x00]).length =
        (TFI_HOST :: cmd :: params).length + 2 := by
      simp
    have htakeall : ((TFI_HOST :: cmd :: params) ++
        [frameDcs (TFI_HOST :: cmd :: params), 0x00]).take
          ((TFI_HOST :: cmd :: params).length + 2) =
        (TFI_HOST :: cmd :: params) ++ [frameDcs (TFI_HOST :: cmd :: params), 0x00] := by
      apply List.take_of_length_le
      omega
    have htakedata : ((TFI_HOST :: cmd :: params) ++
        [frameDcs (TFI_HOST :: cmd :: params), 0x00]).take
          (TFI_HOST :: cmd :: params).length = TFI_HOST :: cmd :: params :=
      List.take_left' rfl
    simp only [List.getD, List.get?, Option.getD_some, htakeall, hblen, htakedata]
    simp [hlen]
  · simp only [frameLcs]
    omega
  · simp only [frameDcs]
    omega

/-- Witness for C1 at `cmd = 0x14`, `params = [0x01, 0x00]` (the
SAMConfiguration frame). -/
theorem c1_frame_roundtrip_witness :
    (0x14 ≤ 255 ∧ ([0x01, 0x00] : List Nat).length ≤ 253) ∧
    (readFrame (buildFrame 0x14 [0x01, 0x00]) = some (TFI_HOST :: 0x14 :: [0x01, 0x00]) ∧
      ((2 + ([0x01, 0x00] : List Nat).length) +
        frameLcs (2 + ([0x01, 0x00] : List Nat).length)) % 256 = 0 ∧
      ((TFI_HOST :: 0x14 :: [0x01, 0x00]).sum +
        frameDcs (TFI_HOST :: 0x14 :: [0x01, 0x00])) % 256 = 0) :=
  ⟨⟨by decide, by decide⟩, c1_frame_roundtrip 0x14 [0x01, 0x00] (by decide) (by decide)⟩

/-- C2 (amended): `_send_command` returns `None` whenever the 6 bytes in the
ACK slot differ from the ACK frame, or the 5-byte response header or the
`LEN+2`-byte body is not fully available before the deadline, or the
extracted payload is empty (`LEN = 0`).  The received frame's LCS and DCS
are not verified by the code. -/
theorem c2_send_command_none (rx : List Nat) :
    (rx.take 6 ≠ ackFrame → sendCommandRx rx = none) ∧
    ((rx.drop 6).length < 5 → sendCommandRx rx = none) ∧
    ((rx.drop 11).length < (rx.drop 6).getD 3 0 + 2 → sendCommandRx rx = none) ∧
    ((rx.drop 6).getD 3 0 = 0 → sendCommandRx rx = none) := by
  have hget : ((rx.drop 6).take 5).getD 3 0 = (rx.drop 6).getD 3 0 := by
    simp [List.getD, List.getElem?_take]
  refine ⟨?_, ?_, ?_, ?_⟩
  · intro h
    simp [sendCommandRx, h]
  · intro h
    simp only [List.length_drop] at h
    simp only [sendCommandRx, readFrame]
    split
    · rfl
    · simp only [List.length_take, List.length_drop]
      split
      · rfl
      · omega
  · intro h
    simp only [List.length_drop, List.getD] at h
    simp only [sendCommandRx, readFrame]
    split
    · rfl
    · split
      · rfl
      · split
        · rfl
        · rename_i h1 h2 h3
          exfalso
          rw [hget] at h3
          simp only [List.length_take, List.length_drop, List.drop_drop,
            List.getD, not_lt] at h3
          omega
  · intro h
    simp only [sendCommandRx, readFrame]
    split
    · rfl
    · split
      · rfl
      · split
        · rfl
        · rw [hget, h]
          simp

/-- Witness for C2 (amended): the empty stream has a bad ACK slot, a short
header, a short body and a zero payload length, and yields `none`. -/
theorem c2_send_command_none_witness :
    (([] : List Nat).take 6 ≠ ackFrame ∧ sendCommandRx [] = none) ∧
    ((([] : List Nat).drop 6).length < 5 ∧ sendCommandRx [] = none) :=
  ⟨⟨by decide, (c2_send_command_none []).1 (by decide)⟩,
   ⟨by decide, (c2_send_command_none []).2.1 (by decide)⟩⟩

/-- Counterexample to C2 as stated: a response stream whose frame violates
both the LCS zero-sum (`LEN=2, LCS=0`) and the DCS zero-sum
(`data = D5 15, DCS = 0`) is still returned as a payload by
`_send_command`, because the code never verifies either checksum. -/
theorem c2_checksums_not_verified :
    sendCommandRx [0x00, 0x00, 0xFF, 0x00, 0xFF, 0x00,
      0x00, 0x00, 0xFF, 0x02, 0x00, 0xD5, 0x15, 0x00, 0x00] = some [0xD5, 0x15] ∧
    (0x02 + 0x00) % 256 ≠ 0 ∧ ((0xD5 + 0x15) + 0x00) % 256 ≠ 0 := by
  refine ⟨by decide, by decide, by decide⟩

/-- C10: `_parse_14443a_target` is total over arbitrary inputs, including
`None` and truncated responses: it always produces `None` or a parsed card,
and never performs an out-of-range index access (the instrumented embedding
never reaches the error marker). -/
theorem c10_parse_total (resp : Option (List Nat)) :
    ∃ c, parse14443aI resp = .ok c := by
  match resp with
  | none => exact ⟨none, rfl⟩
  | some r =>
    simp only [parse14443aI]
    split
    · exact ⟨none, rfl⟩
    · rename_i h3
      split
      · rename_i hg
        exfalso
        have := List.get?_eq_none.mp hg
        omega
      · rename_i nbTg hg2
        split
        · exact ⟨none, rfl⟩
        · split
          · exact ⟨none, rfl⟩
          · rename_i hnb h8
            split
            · rename_i hg
              exfalso
              have := List.get?_eq_none.mp hg
              omega
            · rename_i sak hg6
              split
              · rename_i hg
                exfalso
                have := List.get?_eq_none.mp hg
                omega
              · rename_i uidLen hg7
                split
                · exact ⟨none, rfl⟩
                · rename_i hu
                  split
                  · rename_i hoff
                    split
                    · rename_i hg
                      exfalso
                      have := List.get?_eq_none.mp hg
                      omega
                    · exact ⟨_, rfl⟩
                  · exact ⟨_, rfl⟩

/-- C4: with the Vault emulator selected and `off + len(d) ≤ 256` (for
APDU-representable `off` and `Lc`), WRITE(off, d) answers `90 00` and an
immediately following READ(off, len(d)) answers `d` followed by `90 00`. -/
theorem c4_vault_write_read (st : VaultState) (off : Nat) (d : List Nat)
    (hsel : st.selected = true) (hbuf : st.buffer.length = 256)
    (hoff : off ≤ 255) (hd : d.length ≤ 255) (hbound : off + d.length ≤ 256) :
    (vaultHandle st (0x00 :: 0xD0 :: 0x00 :: off :: d.length :: d)).1 = [0x90, 0x00] ∧
    (vaultHandle (vaultHandle st (0x00 :: 0xD0 :: 0x00 :: off :: d.length :: d)).2
        [0x00, 0xB0, 0x00, off, d.length]).1 = d ++ [0x90, 0x00] := by
  have hw : vaultHandle st (0x00 :: 0xD0 :: 0x00 :: off :: d.length :: d) =
      ([0x90, 0x00],
        ⟨st.buffer.take off ++ (d ++ st.buffer.drop (off + d.length)), true⟩) := by
    simp only [vaultHandle, vaultWrite, List.length_cons, List.getD,
      List.get?, List.drop, List.take_length, Option.getD_some, hsel]
    norm_num
    rw [if_neg (by omega), if_neg (by omega), if_neg (by simp only [BUFFER_SIZE]; omega)]
  have htakelen : (st.buffer.take off).length = off := by
    simp [hbuf]; omega
  have hdrop : ((st.buffer.take off ++ (d ++ st.buffer.drop (off + d.length))).drop off) =
      d ++ st.buffer.drop (off + d.length) :=
    List.drop_left' htakelen
  have hread : vaultRead ⟨st.buffer.take off ++ (d ++ st.buffer.drop (off + d.length)), true⟩
      [0x00, 0xB0, 0x00, off, d.length] =
      (d ++ [0x90, 0x00],
        ⟨st.buffer.take off ++ (d ++ st.buffer.drop (off + d.length)), true⟩) := by
    simp only [vaultRead, List.getD, List.get?, Option.getD_some]
    rw [if_neg (by simp), if_neg (by simp only [ge_iff_le, BUFFER_SIZE, not_le]; omega)]
    rw [hdrop, List.take_left' rfl]
  refine ⟨by rw [hw], ?_⟩
  rw [hw]
  simp only [vaultHandle, List.length_cons, List.getD, List.get?, Option.getD_some]
  norm_num
  rw [hread]

set_option maxRecDepth 8192 in
/-- Witness for C4: write `ABCDE` at offset 250 of a fresh selected Vault
buffer, then read it back (the boundary case of the spec's scenario 3). -/
theorem c4_vault_write_read_witness :
    ((⟨List.replicate 256 0, true⟩ : VaultState).selected = true ∧
      (⟨List.replicate 256 0, true⟩ : VaultState).buffer.length = 256 ∧
      250 ≤ 255 ∧ ([65, 66, 67, 68, 69] : List Nat).length ≤ 255 ∧
      250 + ([65, 66, 67, 68, 69] : List Nat).length ≤ 256) ∧
    ((vaultHandle ⟨List.replicate 256 0, true⟩
        (0x00 :: 0xD0 :: 0x00 :: 250 :: ([65, 66, 67, 68, 69] : List Nat).length ::
          [65, 66, 67, 68, 69])).1 = [0x90, 0x00] ∧
      (vaultHandle (vaultHandle ⟨List.replicate 256 0, true⟩
          (0x00 :: 0xD0 :: 0x00 :: 250 :: ([65, 66, 67, 68, 69] : List Nat).length ::
            [65, 66, 67, 68, 69])).2
          [0x00, 0xB0, 0x00, 250, ([65, 66, 67, 68, 69] : List Nat).length]).1 =
        [65, 66, 67, 68, 69] ++ [0x90, 0x00]) :=
  ⟨⟨rfl, by simp, by decide, by decide, by decide⟩,
    c4_vault_write_read ⟨List.replicate 256 0, true⟩ 250 [65, 66, 67, 68, 69]
      rfl (by simp) (by decide) (by decide) (by decide)⟩

/-- C5: with the Vault emulator selected, WRITE(off, d) with
`off + len(d) > 256` answers `6A 82` and returns the state — and so the
entire 256-byte buffer — unchanged. -/
theorem c5_vault_write_oob (st : VaultState) (off : Nat) (d : List Nat)
    (hsel : st.selected = true) (hoff : off ≤ 255) (hd : d.length ≤ 255)
    (hbound : off + d.length > 256) :
    vaultHandle st (0x00 :: 0xD0 :: 0x00 :: off :: d.length :: d) = ([0x6A, 0x82], st) := by
  simp only [vaultHandle, vaultWrite, List.length_cons, List.getD,
    List.get?, List.drop, List.take_length, Option.getD_some, hsel]
  norm_num
  rw [if_neg (by omega), if_neg (by omega), if_pos (by simp only [BUFFER_SIZE]; omega)]

set_option maxRecDepth 8192 in
/-- Witness for C5: `write_vault(253, bytes(5))` is rejected with `6A 82`
(the spec's scenario 3 boundary case). -/
theorem c5_vault_write_oob_witness :
    ((⟨List.replicate 256 0, true⟩ : VaultState).selected = true ∧ 253 ≤ 255 ∧
      ([0, 0, 0, 0, 0] : List Nat).length ≤ 255 ∧
      253 + ([0, 0, 0, 0, 0] : List Nat).length > 256) ∧
    vaultHandle ⟨List.replicate 256 0, true⟩
      (0x00 :: 0xD0 :: 0x00 :: 253 :: ([0, 0, 0, 0, 0] : List Nat).length ::
        [0, 0, 0, 0, 0]) = ([0x6A, 0x82], ⟨List.replicate 256 0, true⟩) :=
  ⟨⟨rfl, by decide, by decide, by decide⟩,
    c5_vault_write_oob ⟨List.replicate 256 0, true⟩ 253 [0, 0, 0, 0, 0]
      rfl (by decide) (by decide) (by decide)⟩

/-- C6: with a file of length `L` selected in the Type 4 emulator, READ
BINARY with offset `(P1<<8)|P2` greater than `L` answers `6A 82`; otherwise
it answers `file[offset : offset+Le] || 90 00`, whose payload has length
`min Le (L - offset)` — never extending past the end of the file. -/
theorem c6_t4_read_binary (st : T4State) (f : List Nat) (cla p1 p2 le : Nat)
    (hf : st.selectedFile = some f) :
    (p1 * 256 + p2 > f.length →
      t4Handle st [cla, 0xB0, p1, p2, le] = ([0x6A, 0x82], st)) ∧
    (p1 * 256 + p2 ≤ f.length →
      (t4Handle st [cla, 0xB0, p1, p2, le]).1 =
        (f.drop (p1 * 256 + p2)).take le ++ [0x90, 0x00] ∧
      ((f.drop (p1 * 256 + p2)).take le).length = min le (f.length - (p1 * 256 + p2))) := by
  have h : t4Handle st [cla, 0xB0, p1, p2, le] = t4ReadBinary st [cla, 0xB0, p1, p2, le] := by
    simp [t4Handle, List.getD]
  constructor
  · intro hgt
    rw [h]
    simp only [t4ReadBinary, hf, List.getD, List.get?, Option.getD_some]
    rw [if_pos hgt]
  · intro hle
    rw [h]
    simp only [t4ReadBinary, hf, List.getD, List.get?, Option.getD_some]
    rw [if_neg (by omega)]
    exact ⟨rfl, by simp [List.length_take, List.length_drop]⟩

set_option maxRecDepth 8192 in
/-- Witness for C6 on the emulator state for an empty NDEF message with the
CC file selected: an in-range read at offset 1 and the payload-length bound. -/
theorem c6_t4_read_binary_witness :
    ((t4Select (t4Init []) [0x00, 0xA4, 0x00, 0x0C, 0x02, 0xE1, 0x03]).2.selectedFile =
      some (t4Init []).ccFile ∧ 0 * 256 + 1 ≤ (t4Init []).ccFile.length) ∧
    ((t4Handle (t4Select (t4Init []) [0x00, 0xA4, 0x00, 0x0C, 0x02, 0xE1, 0x03]).2
        [0x00, 0xB0, 0x00, 0x01, 0x04]).1 =
      ((t4Init []).ccFile.drop (0 * 256 + 1)).take 0x04 ++ [0x90, 0x00] ∧
      (((t4Init []).ccFile.drop (0 * 256 + 1)).take 0x04).length =
        min 0x04 ((t4Init []).ccFile.length - (0 * 256 + 1))) :=
  ⟨⟨by decide, by decide⟩,
    ((c6_t4_read_binary (t4Select (t4Init []) [0x00, 0xA4, 0x00, 0x0C, 0x02, 0xE1, 0x03]).2
      (t4Init []).ccFile 0x00 0x00 0x01 0x04 (by decide)).2 (by decide))⟩

/-- C9: selection is monotone in both emulator dispatchers: no `handle_apdu`
call ever resets the Vault `selected` flag or the Type 4 `selected_file`
once set. -/
theorem c9_selection_monotone (apdu : List Nat) (sv : VaultState) (st : T4State) :
    (sv.selected = true → ((vaultHandle sv apdu).2).selected = true) ∧
    (st.selectedFile.isSome = true → ((t4Handle st apdu).2).selectedFile.isSome = true) := by
  constructor
  · intro h
    simp only [vaultHandle, vaultSelect, vaultRead, vaultWrite]
    repeat' split
    all_goals simp_all
  · intro h
    simp only [t4Handle, t4Select, t4ReadBinary]
    repeat' split
    all_goals simp_all

set_option maxRecDepth 8192 in
/-- Witness for C9 on a concrete APDU (a failing SELECT) against selected
states of both emulators. -/
theorem c9_selection_monotone_witness :
    ((⟨List.replicate 256 0, true⟩ : VaultState).selected = true ∧
      ((vaultHandle ⟨List.replicate 256 0, true⟩ [0x00, 0xA4, 0x04, 0x00, 0x00]).2).selected = true) ∧
    ((⟨[], [], some []⟩ : T4State).selectedFile.isSome = true ∧
      ((t4Handle ⟨[], [], some []⟩ [0x00, 0xA4, 0x04, 0x00, 0x00]).2).selectedFile.isSome = true) :=
  ⟨⟨rfl, (c9_selection_monotone [0x00, 0xA4, 0x04, 0x00, 0x00]
      ⟨List.replicate 256 0, true⟩ ⟨[], [], some []⟩).1 rfl⟩,
   ⟨rfl, (c9_selection_monotone [0x00, 0xA4, 0x04, 0x00, 0x00]
      ⟨List.replicate 256 0, true⟩ ⟨[], [], some []⟩).2 rfl⟩⟩

/-- Projection of a `_send_command` step: one scripted response is consumed
and one command event is appended. -/
theorem sendCmdW_snd (c : Nat) (p : List Nat) (st : WState) :
    (sendCmdW c p st).2 = ⟨st.script.drop 1, st.trace ++ [Ev.cmd c p]⟩ := by
  obtain ⟨scr, tr⟩ := st
  cases scr <;> simp [sendCmdW]

/-- Characterization of one soft-retry round of `sam_configuration`: it
makes `k ≤ n` attempts, appending `k` SAMConfiguration command events and
consuming `k` scripted responses, and returns `None` only when all `n`
scripted responses were `None`. -/
theorem softTries_spec (n : Nat) (st : WState) :
    ∃ k, k ≤ n ∧
      (softTries n st).2.trace = st.trace ++ List.replicate k (Ev.cmd 0x14 [0x01, 0x00]) ∧
      (softTries n st).2.script = st.script.drop k ∧
      ((softTries n st).1 = none →
        k = n ∧ ∀ i < n, st.script.getD i none = none) := by
  induction n generalizing st with
  | zero =>
    exact ⟨0, le_refl 0, by simp [softTries], by simp [softTries],
      fun _ => ⟨rfl, fun i hi => absurd hi (Nat.not_lt_zero i)⟩⟩
  | succ n ih =>
    obtain ⟨scr, tr⟩ := st
    cases scr with
    | nil =>
      have hstep : softTries (n + 1) ⟨[], tr⟩ =
          softTries n ⟨[], tr ++ [Ev.cmd 0x14 [0x01, 0x00]]⟩ := by
        simp [softTries, sendCmdW]
      obtain ⟨k, hk, htr, hscr, hnone⟩ := ih ⟨[], tr ++ [Ev.cmd 0x14 [0x01, 0x00]]⟩
      refine ⟨k + 1, by omega, ?_, ?_, ?_⟩
      · rw [hstep, htr]
        simp [List.replicate_succ, List.append_assoc]
      · rw [hstep, hscr]
        simp
      · intro hres
        rw [hstep] at hres
        obtain ⟨hkn, _⟩ := hnone hres
        exact ⟨by omega, fun i _ => by simp [List.getD]⟩
    | cons r rest =>
      cases r with
      | some x =>
        refine ⟨1, by omega, ?_, ?_, ?_⟩
        · simp [softTries, sendCmdW, List.replicate_succ]
        · simp [softTries, sendCmdW]
        · intro hres
          simp [softTries, sendCmdW] at hres
      | none =>
        have hstep : softTries (n + 1) ⟨none :: rest, tr⟩ =
            softTries n ⟨rest, tr ++ [Ev.cmd 0x14 [0x01, 0x00]]⟩ := by
          simp [softTries, sendCmdW]
        obtain ⟨k, hk, htr, hscr, hnone⟩ := ih ⟨rest, tr ++ [Ev.cmd 0x14 [0x01, 0x00]]⟩
        refine ⟨k + 1, by omega, ?_, ?_, ?_⟩
        · rw [hstep, htr]
          simp [List.replicate_succ, List.append_assoc]
        · rw [hstep, hscr]
          simp
        · intro hres
          rw [hstep] at hres
          obtain ⟨hkn, hall⟩ := hnone hres
          refine ⟨by omega, fun i hi => ?_⟩
          cases i with
          | zero => simp [List.getD]
          | succ j => simpa [List.getD] using hall j (by omega)

/-- C7: `sam_configuration` performs at most one hard reset and at most one
full reopen, sends the SAMConfiguration command at most 9 times, sends it
exactly 9 times whenever it returns `None`, and performs no hard reset and
no reopen (returning a response) whenever one of the first three scripted
responses is non-`None`. -/
theorem c7_sam_recovery (script : List (Option (List Nat))) :
    ((samConfigurationW 3 ⟨script, []⟩).2.trace.count Ev.hardReset ≤ 1 ∧
      (samConfigurationW 3 ⟨script, []⟩).2.trace.count Ev.reopen ≤ 1 ∧
      (samConfigurationW 3 ⟨script, []⟩).2.trace.count (Ev.cmd 0x14 [0x01, 0x00]) ≤ 9) ∧
    ((samConfigurationW 3 ⟨script, []⟩).1 = none →
      (samConfigurationW 3 ⟨script, []⟩).2.trace.count (Ev.cmd 0x14 [0x01, 0x00]) = 9) ∧
    ((∃ i, i < 3 ∧ script.getD i none ≠ none) →
      (samConfigurationW 3 ⟨script, []⟩).2.trace.count Ev.hardReset = 0 ∧
      (samConfigurationW 3 ⟨script, []⟩).2.trace.count Ev.reopen = 0 ∧
      (samConfigurationW 3 ⟨script, []⟩).1 ≠ none) := by
  obtain ⟨k1, hk1, htr1, hscr1, hnone1⟩ := softTries_spec 3 ⟨script, []⟩
  rcases h1 : softTries 3 ⟨script, []⟩ with ⟨r1, st1⟩
  rw [h1] at htr1 hscr1 hnone1
  have htr1' : st1.trace = List.replicate k1 (Ev.cmd 0x14 [0x01, 0x00]) := by
    simpa using htr1
  cases r1 with
  | some x =>
    have hsam : samConfigurationW 3 ⟨script, []⟩ = (some x, st1) := by
      simp [samConfigurationW, h1]
    rw [hsam]
    refine ⟨⟨?_, ?_, ?_⟩, ?_, ?_⟩
    · simp [htr1', List.count_replicate]
    · simp [htr1', List.count_replicate]
    · simp only [htr1', List.count_replicate]
      simp
      omega
    · intro h
      simp at h
    · intro _
      refine ⟨by simp [htr1', List.count_replicate], by simp [htr1', List.count_replicate], by simp⟩
  | none =>
    obtain ⟨hk1eq, hall1⟩ := hnone1 (by simp)
    subst hk1eq
    have htrw2 : (wakeupW (hardResetW st1)).trace =
        List.replicate 3 (Ev.cmd 0x14 [0x01, 0x00]) ++ [Ev.hardReset] ++ [Ev.cmd 0x02 []] := by
      simp [wakeupW, hardResetW, sendCmdW_snd, htr1']
    obtain ⟨k2, hk2, htr2, hscr2, hnone2⟩ := softTries_spec 3 (wakeupW (hardResetW st1))
    rcases h2 : softTries 3 (wakeupW (hardResetW st1)) with ⟨r2, st2⟩
    rw [h2] at htr2 hscr2 hnone2
    rw [htrw2] at htr2
    have htr2' : st2.trace =
        (List.replicate 3 (Ev.cmd 0x14 [0x01, 0x00]) ++ [Ev.hardReset] ++ [Ev.cmd 0x02 []]) ++
          List.replicate k2 (Ev.cmd 0x14 [0x01, 0x00]) := by
      simpa using htr2
    cases r2 with
    | some x =>
      have hsam : samConfigurationW 3 ⟨script, []⟩ = (some x, st2) := by
        simp [samConfigurationW, h1, h2]
      rw [hsam]
      refine ⟨⟨?_, ?_, ?_⟩, ?_, ?_⟩
      · simp [htr2', List.count_append, List.count_replicate]
      · simp [htr2', List.count_append, List.count_replicate]
      · simp only [htr2', List.count_append, List.count_replicate]
        simp
        omega
      · intro h
        simp at h
      · intro ⟨i, hi, hne⟩
        exact absurd (hall1 i hi) hne
    | none =>
      obtain ⟨hk2eq, _⟩ := hnone2 (by simp)
      subst hk2eq
      have htrw4 : (wakeupW (reopenW st2)).trace =
          ((List.replicate 3 (Ev.cmd 0x14 [0x01, 0x00]) ++ [Ev.hardReset] ++ [Ev.cmd 0x02 []]) ++
            List.replicate 3 (Ev.cmd 0x14 [0x01, 0x00])) ++ [Ev.reopen] ++ [Ev.cmd 0x02 []] := by
        simp [wakeupW, reopenW, sendCmdW_snd, htr2']
      obtain ⟨k3, hk3, htr3, hscr3, hnone3⟩ := softTries_spec 3 (wakeupW (reopenW st2))
      rw [htrw4] at htr3
      have hsam : samConfigurationW 3 ⟨script, []⟩ = softTries 3 (wakeupW (reopenW st2)) := by
        simp [samConfigurationW, h1, h2]
      rw [hsam]
      refine ⟨⟨?_, ?_, ?_⟩, ?_, ?_⟩
      · simp [htr3, List.count_append, List.count_replicate]
      · simp [htr3, List.count_append, List.count_replicate]
      · simp only [htr3, List.count_append, List.count_replicate]
        simp
        omega
      · intro hres
        obtain ⟨hk3eq, _⟩ := hnone3 hres
        subst hk3eq
        simp [htr3, List.count_append, List.count_replicate]
      · intro ⟨i, hi, hne⟩
        exact absurd (hall1 i hi) hne

/-- Witness for C7: a script whose first response succeeds; the helper
performs no hard reset and no reopen and does not return `None`. -/
theorem c7_sam_recovery_witness :
    (∃ i, i < 3 ∧ ([some [0xD5, 0x15]] : List (Option (List Nat))).getD i none ≠ none) ∧
    ((samConfigurationW 3 ⟨[some [0xD5, 0x15]], []⟩).2.trace.count Ev.hardReset = 0 ∧
      (samConfigurationW 3 ⟨[some [0xD5, 0x15]], []⟩).2.trace.count Ev.reopen = 0 ∧
      (samConfigurationW 3 ⟨[some [0xD5, 0x15]], []⟩).1 ≠ none) :=
  ⟨⟨0, by decide, by decide⟩,
    (c7_sam_recovery [some [0xD5, 0x15]]).2.2 ⟨0, by decide, by decide⟩⟩

/-- Trace shape of the postamble: exactly an `InRelease` event then a
`PowerDown` event are appended. -/
theorem postambleW_trace (st : WState) :
    (postambleW st).trace = st.trace ++ [Ev.cmd 0x44 [0x00], Ev.cmd 0x16 [0xF0]] := by
  simp [postambleW, sendCmdW_snd]

/-- Trace shape of `_exchange_apdu`: it appends one or two `InDataExchange`
events carrying `Tg` and the given APDU, and nothing else. -/
theorem exchangeApduW_trace (tg : Nat) (apdu : List Nat) (st : WState) :
    ∃ d, (exchangeApduW tg apdu st).2.trace = st.trace ++ d ∧
      ∀ e ∈ d, e = Ev.cmd 0x40 (tg :: apdu) := by
  simp only [exchangeApduW]
  rcases h1 : sendCmdW 0x40 (tg :: apdu) st with ⟨r1, st1⟩
  have ht1 : st1.trace = st.trace ++ [Ev.cmd 0x40 (tg :: apdu)] := by
    have h := sendCmdW_snd 0x40 (tg :: apdu) st
    rw [h1] at h
    simp at h
    simp [h]
  cases hstep : exchangeStep r1 with
  | ok s1 s2 p =>
    exact ⟨[Ev.cmd 0x40 (tg :: apdu)], by simpa using ht1, by simp⟩
  | noResp =>
    exact ⟨[Ev.cmd 0x40 (tg :: apdu)], by simpa using ht1, by simp⟩
  | badStatus =>
    rcases h2 : sendCmdW 0x40 (tg :: apdu) st1 with ⟨r2, st2⟩
    have ht2 : st2.trace = st.trace ++
        [Ev.cmd 0x40 (tg :: apdu), Ev.cmd 0x40 (tg :: apdu)] := by
      have h := sendCmdW_snd 0x40 (tg :: apdu) st1
      rw [h2] at h
      simp at h
      simp [h, ht1]
    cases hstep2 : exchangeStep r2 with
    | ok s1 s2 p =>
      exact ⟨[Ev.cmd 0x40 (tg :: apdu), Ev.cmd 0x40 (tg :: apdu)], by simpa using ht2, by simp⟩
    | noResp =>
      exact ⟨[Ev.cmd 0x40 (tg :: apdu), Ev.cmd 0x40 (tg :: apdu)], by simpa using ht2, by simp⟩
    | badStatus =>
      exact ⟨[Ev.cmd 0x40 (tg :: apdu), Ev.cmd 0x40 (tg :: apdu)], by simpa using ht2, by simp⟩
    | short =>
      exact ⟨[Ev.cmd 0x40 (tg :: apdu), Ev.cmd 0x40 (tg :: apdu)], by simpa using ht2, by simp⟩
  | short =>
    rcases h2 : sendCmdW 0x40 (tg :: apdu) st1 with ⟨r2, st2⟩
    have ht2 : st2.trace = st.trace ++
        [Ev.cmd 0x40 (tg :: apdu), Ev.cmd 0x40 (tg :: apdu)] := by
      have h := sendCmdW_snd 0x40 (tg :: apdu) st1
      rw [h2] at h
      simp at h
      simp [h, ht1]
    cases hstep2 : exchangeStep r2 with
    | ok s1 s2 p =>
      exact ⟨[Ev.cmd 0x40 (tg :: apdu), Ev.cmd 0x40 (tg :: apdu)], by simpa using ht2, by simp⟩
    | noResp =>
      exact ⟨[Ev.cmd 0x40 (tg :: apdu), Ev.cmd 0x40 (tg :: apdu)], by simpa using ht2, by simp⟩
    | badStatus =>
      exact ⟨[Ev.cmd 0x40 (tg :: apdu), Ev.cmd 0x40 (tg :: apdu)], by simpa using ht2, by simp⟩
    | short =>
      exact ⟨[Ev.cmd 0x40 (tg :: apdu), Ev.cmd 0x40 (tg :: apdu)], by simpa using ht2, by simp⟩

/-- Trace shape of `sam_configuration`: it appends only SAMConfiguration
command events, sacrificial wake-up commands, and reset and reopen marks —
in particular no `InListPassiveTarget`, no postamble command, and no
`InDataExchange` events. -/
theorem samConfigurationW_trace (st : WState) :
    ∃ d, (samConfigurationW 3 st).2.trace = st.trace ++ d ∧
      ∀ e ∈ d, e = Ev.cmd 0x14 [0x01, 0x00] ∨ e = Ev.cmd 0x02 [] ∨
        e = Ev.hardReset ∨ e = Ev.reopen := by
  obtain ⟨k1, _, htr1, _, _⟩ := softTries_spec 3 st
  rcases h1 : softTries 3 st with ⟨r1, st1⟩
  rw [h1] at htr1
  simp only at htr1
  cases r1 with
  | some x =>
    refine ⟨List.replicate k1 (Ev.cmd 0x14 [0x01, 0x00]), ?_, ?_⟩
    · simpa [samConfigurationW, h1] using htr1
    · intro e he
      rw [List.eq_of_mem_replicate he]
      exact Or.inl rfl
  | none =>
    have htrw2 : (wakeupW (hardResetW st1)).trace = st.trace ++
        (List.replicate k1 (Ev.cmd 0x14 [0x01, 0x00]) ++ [Ev.hardReset, Ev.cmd 0x02 []]) := by
      simp [wakeupW, hardResetW, sendCmdW_snd, htr1]
    obtain ⟨k2, _, htr2, _, _⟩ := softTries_spec 3 (wakeupW (hardResetW st1))
    rcases h2 : softTries 3 (wakeupW (hardResetW st1)) with ⟨r2, st2⟩
    rw [h2] at htr2
    simp only at htr2
    rw [htrw2] at htr2
    cases r2 with
    | some x =>
      refine ⟨(List.replicate k1 (Ev.cmd 0x14 [0x01, 0x00]) ++
          [Ev.hardReset, Ev.cmd 0x02 []]) ++
          List.replicate k2 (Ev.cmd 0x14 [0x01, 0x00]), ?_, ?_⟩
      · simpa [samConfigurationW, h1, h2] using htr2
      · intro e he
        simp only [List.mem_append, List.mem_replicate, List.mem_cons,
          List.not_mem_nil, or_false] at he
        tauto
    | none =>
      have htrw4 : (wakeupW (reopenW st2)).trace = st.trace ++
          (((List.replicate k1 (Ev.cmd 0x14 [0x01, 0x00]) ++
            [Ev.hardReset, Ev.cmd 0x02 []]) ++
            List.replicate k2 (Ev.cmd 0x14 [0x01, 0x00])) ++
            [Ev.reopen, Ev.cmd 0x02 []]) := by
        simp [wakeupW, reopenW, sendCmdW_snd, htr2]
      obtain ⟨k3, _, htr3, _, _⟩ := softTries_spec 3 (wakeupW (reopenW st2))
      rw [htrw4] at htr3
      refine ⟨((((List.replicate k1 (Ev.cmd 0x14 [0x01, 0x00]) ++
          [Ev.hardReset, Ev.cmd 0x02 []]) ++
          List.replicate k2 (Ev.cmd 0x14 [0x01, 0x00])) ++
          [Ev.reopen, Ev.cmd 0x02 []]) ++
          List.replicate k3 (Ev.cmd 0x14 [0x01, 0x00])), ?_, ?_⟩
      · have hsam : samConfigurationW 3 st = softTries 3 (wakeupW (reopenW st2)) := by
          simp [samConfigurationW, h1, h2]
        rw [hsam]
        simpa using htr3
      · intro e he
        simp only [List.mem_append, List.mem_replicate, List.mem_cons,
          List.not_mem_nil, or_false] at he
        tauto

/-- Trace shape of the chunked NDEF read loop: only `InDataExchange`
events are appended. -/
theorem readChunksW_trace (fuel : Nat) :
    ∀ offset remaining acc st,
      ∃ d, (readChunksW fuel offset remaining acc st).2.trace = st.trace ++ d ∧
        ∀ e ∈ d, ∃ p, e = Ev.cmd 0x40 p := by
  induction fuel with
  | zero =>
    intro offset remaining acc st
    exact ⟨[], by simp [readChunksW], by simp⟩
  | succ fuel ih =>
    intro offset remaining acc st
    simp only [readChunksW]
    split
    · exact ⟨[], by simp, by simp⟩
    · obtain ⟨d1, hd1, hm1⟩ := exchangeApduW_trace 0x01
        [0x00, 0xB0, (offset / 256) % 256, offset % 256, min remaining 59] st
      rcases h1 : exchangeApduW 0x01
          [0x00, 0xB0, (offset / 256) % 256, offset % 256, min remaining 59] st with ⟨r1, st1⟩
      rw [h1] at hd1
      simp only at hd1
      cases r1 with
      | err => exact ⟨d1, hd1, fun e he => ⟨_, hm1 e he⟩⟩
      | ok s1 s2 chunk =>
        dsimp only
        split
        · obtain ⟨d2, hd2, hm2⟩ := ih (offset + chunk.length)
            (remaining - chunk.length) (acc ++ chunk) st1
          refine ⟨d1 ++ d2, ?_, ?_⟩
          · rw [hd2, hd1, List.append_assoc]
          · intro e he
            rcases List.mem_append.mp he with h | h
            · exact ⟨_, hm1 e h⟩
            · exact hm2 e h
        · exact ⟨d1, hd1, fun e he => ⟨_, hm1 e he⟩⟩

/-- Trace shape of the chunked UPDATE BINARY loop: only `InDataExchange`
events are appended. -/
theorem writeChunksW_trace (fuel : Nat) :
    ∀ maxWrite offset remaining st,
      ∃ d, (writeChunksW fuel maxWrite offset remaining st).2.trace = st.trace ++ d ∧
        ∀ e ∈ d, ∃ p, e = Ev.cmd 0x40 p := by
  induction fuel with
  | zero =>
    intro maxWrite offset remaining st
    exact ⟨[], by simp [writeChunksW], by simp⟩
  | succ fuel ih =>
    intro maxWrite offset remaining st
    match remaining with
    | [] => exact ⟨[], by simp [writeChunksW], by simp⟩
    | x :: xs =>
      simp only [writeChunksW]
      obtain ⟨d1, hd1, hm1⟩ := exchangeApduW_trace 0x01
        ([0x00, 0xD6, (offset / 256) % 256, offset % 256, ((x :: xs).take maxWrite).length] ++
          (x :: xs).take maxWrite) st
      rcases h1 : exchangeApduW 0x01
          ([0x00, 0xD6, (offset / 256) % 256, offset % 256, ((x :: xs).take maxWrite).length] ++
            (x :: xs).take maxWrite) st with ⟨r1, st1⟩
      rw [h1] at hd1
      simp only at hd1
      cases r1 with
      | err => exact ⟨d1, hd1, fun e he => ⟨_, hm1 e he⟩⟩
      | ok s1 s2 p =>
        dsimp only
        split
        · obtain ⟨d2, hd2, hm2⟩ := ih maxWrite (offset + ((x :: xs).take maxWrite).length)
            ((x :: xs).drop maxWrite) st1
          refine ⟨d1 ++ d2, ?_, ?_⟩
          · rw [hd2, hd1, List.append_assoc]
          · intro e he
            rcases List.mem_append.mp he with h | h
            · exact ⟨_, hm1 e h⟩
            · exact hm2 e h
        · exact ⟨d1, hd1, fun e he => ⟨_, hm1 e he⟩⟩

/-- A trace with no `InListPassiveTarget` event is trivially paired. -/
theorem pairedB_of_no_inList (A : List Ev) (hA : ∀ e ∈ A, isInListEv e = false) :
    pairedB A = true := by
  induction A with
  | nil => rfl
  | cons a A ih =>
    simp only [pairedB, Bool.and_eq_true, Bool.or_eq_true, Bool.not_eq_true']
    exact ⟨Or.inl (hA a (List.mem_cons_self a A)),
      ih fun e he => hA e (List.mem_cons_of_mem a he)⟩

/-- A trace consisting of an `InListPassiveTarget`-free prefix, the
`InListPassiveTarget` event, and a suffix that is `InListPassiveTarget`-free
and contains a postamble event, is paired. -/
theorem pairedB_decomp (A B : List Ev)
    (hA : ∀ e ∈ A, isInListEv e = false)
    (hB : ∀ e ∈ B, isInListEv e = false)
    (hpost : ∃ e ∈ B, isPostEv e = true) :
    pairedB (A ++ Ev.cmd 0x4A [0x01, 0x00] :: B) = true := by
  induction A with
  | nil =>
    simp only [List.nil_append, pairedB, Bool.and_eq_true, Bool.or_eq_true]
    refine ⟨Or.inr ?_, pairedB_of_no_inList B hB⟩
    obtain ⟨e, he, hp⟩ := hpost
    exact List.any_eq_true.mpr ⟨e, he, hp⟩
  | cons a A ih =>
    simp only [List.cons_append, pairedB, Bool.and_eq_true, Bool.or_eq_true,
      Bool.not_eq_true']
    exact ⟨Or.inl (hA a (List.mem_cons_self a A)),
      ih fun e he => hA e (List.mem_cons_of_mem a he)⟩

/-- Execution cases of the shared preamble: SAM failure (trace extension
free of `InListPassiveTarget`), no card (prefix, the listing event, then
`PowerDown`), or the body running from a state whose trace ends with the
listing event. -/
theorem preambleThen_cases {X : Type} (a b : X) (body : CardP → WState → X × WState)
    (st0 : WState) :
    (∃ d, preambleThen a b body st0 =
        (a, (samConfigurationW 3 (wakeupW st0)).2) ∧
      (samConfigurationW 3 (wakeupW st0)).2.trace = st0.trace ++ d ∧
      ∀ e ∈ d, isInListEv e = false ∧ isUpdateBinaryEv e = false) ∨
    (∃ A st', preambleThen a b body st0 = (b, st') ∧
      st'.trace = st0.trace ++ A ++ Ev.cmd 0x4A [0x01, 0x00] :: [Ev.cmd 0x16 [0xF0]] ∧
      ∀ e ∈ A, isInListEv e = false ∧ isUpdateBinaryEv e = false) ∨
    (∃ card stb A, preambleThen a b body st0 = body card stb ∧
      stb.trace = st0.trace ++ A ++ [Ev.cmd 0x4A [0x01, 0x00]] ∧
      ∀ e ∈ A, isInListEv e = false ∧ isUpdateBinaryEv e = false) := by
  have hwake : (wakeupW st0).trace = st0.trace ++ [Ev.cmd 0x02 []] := by
    simp [wakeupW, sendCmdW_snd]
  obtain ⟨ds, hds, hms⟩ := samConfigurationW_trace (wakeupW st0)
  rw [hwake] at hds
  rcases h1 : samConfigurationW 3 (wakeupW st0) with ⟨r1, st1⟩
  rw [h1] at hds
  simp only at hds
  have hbenign : ∀ e ∈ [Ev.cmd 0x02 []] ++ ds,
      isInListEv e = false ∧ isUpdateBinaryEv e = false := by
    intro e he
    rcases List.mem_append.mp he with h | h
    · simp only [List.mem_singleton] at h
      subst h
      exact ⟨rfl, rfl⟩
    · rcases hms e h with h' | h' | h' | h' <;> subst h' <;> exact ⟨rfl, rfl⟩
  cases r1 with
  | none =>
    refine Or.inl ⟨[Ev.cmd 0x02 []] ++ ds, ?_, ?_, hbenign⟩
    · simp [preambleThen, h1]
    · rw [hds, List.append_assoc]
  | some x =>
    have hrf : ((sendCmdW 0x32 [0x02, 0x00, 0x0B, 0x0E]
        (sendCmdW 0x32 [0x05, 0xFF, 0x01, 0xFF] st1).2).2).trace =
        st0.trace ++ (([Ev.cmd 0x02 []] ++ ds) ++
          [Ev.cmd 0x32 [0x05, 0xFF, 0x01, 0xFF], Ev.cmd 0x32 [0x02, 0x00, 0x0B, 0x0E]]) := by
      simp [sendCmdW_snd, hds]
    rcases h2 : sendCmdW 0x4A [0x01, 0x00]
        (sendCmdW 0x32 [0x02, 0x00, 0x0B, 0x0E]
          (sendCmdW 0x32 [0x05, 0xFF, 0x01, 0xFF] st1).2).2 with ⟨r2, st2⟩
    have ht2 : st2.trace = st0.trace ++
        ((([Ev.cmd 0x02 []] ++ ds) ++
          [Ev.cmd 0x32 [0x05, 0xFF, 0x01, 0xFF], Ev.cmd 0x32 [0x02, 0x00, 0x0B, 0x0E]]) ++
          [Ev.cmd 0x4A [0x01, 0x00]]) := by
      have h := sendCmdW_snd 0x4A [0x01, 0x00]
        (sendCmdW 0x32 [0x02, 0x00, 0x0B, 0x0E]
          (sendCmdW 0x32 [0x05, 0xFF, 0x01, 0xFF] st1).2).2
      rw [h2] at h
      simp only at h
      rw [h, hrf]
      simp
    have hbenign2 : ∀ e ∈ ([Ev.cmd 0x02 []] ++ ds) ++
        [Ev.cmd 0x32 [0x05, 0xFF, 0x01, 0xFF], Ev.cmd 0x32 [0x02, 0x00, 0x0B, 0x0E]],
        isInListEv e = false ∧ isUpdateBinaryEv e = false := by
      intro e he
      rcases List.mem_append.mp he with h | h
      · exact hbenign e h
      · simp only [List.mem_cons, List.not_mem_nil, or_false] at h
        rcases h with h | h <;> subst h <;> exact ⟨rfl, rfl⟩
    cases hparse : parse14443a r2 with
    | none =>
      refine Or.inr (Or.inl ⟨([Ev.cmd 0x02 []] ++ ds) ++
        [Ev.cmd 0x32 [0x05, 0xFF, 0x01, 0xFF], Ev.cmd 0x32 [0x02, 0x00, 0x0B, 0x0E]],
        (sendCmdW 0x16 [0xF0] st2).2, ?_, ?_, hbenign2⟩)
      · simp [preambleThen, h1, h2, hparse]
      · rw [sendCmdW_snd]
        simp only [ht2]
        simp
    | some card =>
      refine Or.inr (Or.inr ⟨card, st2, ([Ev.cmd 0x02 []] ++ ds) ++
        [Ev.cmd 0x32 [0x05, 0xFF, 0x01, 0xFF], Ev.cmd 0x32 [0x02, 0x00, 0x0B, 0x0E]],
        ?_, ?_, hbenign2⟩)
      · simp [preambleThen, h1, h2, hparse]
      · rw [ht2]
        simp

/-- An `InDataExchange`-only extension followed by the postamble is good. -/
theorem goodDelta_post_tail (d : List Ev) (hm : ∀ e ∈ d, ∃ p, e = Ev.cmd 0x40 p) :
    GoodDelta (d ++ [Ev.cmd 0x44 [0x00], Ev.cmd 0x16 [0xF0]]) := by
  constructor
  · intro e he
    rcases List.mem_append.mp he with h | h
    · obtain ⟨p, hp⟩ := hm e h
      subst hp
      rfl
    · simp only [List.mem_cons, List.not_mem_nil, or_false] at h
      rcases h with h | h <;> subst h <;> rfl
  · exact ⟨Ev.cmd 0x44 [0x00], by simp, rfl⟩

/-- Prefixing a good extension with `InDataExchange` events keeps it good. -/
theorem goodDelta_exch_front (d1 d2 : List Ev)
    (hm : ∀ e ∈ d1, ∃ p, e = Ev.cmd 0x40 p) (h : GoodDelta d2) :
    GoodDelta (d1 ++ d2) := by
  constructor
  · intro e he
    rcases List.mem_append.mp he with h' | h'
    · obtain ⟨p, hp⟩ := hm e h'
      subst hp
      rfl
    · exact h.1 e h'
  · obtain ⟨e, he, hp⟩ := h.2
    exact ⟨e, List.mem_append_right d1 he, hp⟩

/-- Merging two `InDataExchange`-only extension facts. -/
theorem mem_exch_append (D d : List Ev)
    (hD : ∀ e ∈ D, ∃ p, e = Ev.cmd 0x40 p) (hd : ∀ e ∈ d, ∃ p, e = Ev.cmd 0x40 p) :
    ∀ e ∈ D ++ d, ∃ p, e = Ev.cmd 0x40 p := fun e he =>
  (List.mem_append.mp he).elim (hD e) (hd e)

/-- Pairing for any preamble-plus-body workflow whose body, outside its
`bad` (raised-exception) results, appends a good extension. -/
theorem preambleThen_paired {X : Type} (a b : X) (body : CardP → WState → X × WState)
    (bad : X → Prop)
    (hbody : ∀ card st, ¬ bad (body card st).1 →
      ∃ d, (body card st).2.trace = st.trace ++ d ∧ GoodDelta d)
    (script : List (Option (List Nat)))
    (h : ¬ bad (preambleThen a b body ⟨script, []⟩).1) :
    pairedB (preambleThen a b body ⟨script, []⟩).2.trace = true := by
  rcases preambleThen_cases a b body ⟨script, []⟩ with
    ⟨d, heq, htr, hben⟩ | ⟨A, st', heq, htr, hben⟩ | ⟨card, stb, A, heq, htr, hben⟩
  · rw [heq]
    simp only
    rw [htr]
    simp only [List.nil_append]
    exact pairedB_of_no_inList d fun e he => (hben e he).1
  · rw [heq]
    simp only
    rw [htr]
    simp only [List.nil_append]
    refine pairedB_decomp A [Ev.cmd 0x16 [0xF0]]
      (fun e he => (hben e he).1) ?_ ?_
    · intro e he
      simp only [List.mem_singleton] at he
      subst he
      rfl
    · exact ⟨Ev.cmd 0x16 [0xF0], by simp, rfl⟩
  · rw [heq] at h ⊢
    obtain ⟨d, hd, hgood⟩ := hbody card stb h
    rw [hd, htr]
    simp only [List.nil_append, List.append_assoc, List.singleton_append]
    exact pairedB_decomp A d (fun e he => (hben e he).1) hgood.1 hgood.2

/-- Body of `read_vault_tag`: whenever `_exchange_apdu` does not raise, the
body appends only `InDataExchange` events followed by the postamble. -/
theorem readVaultBody_good (ro rl : Nat) (card : CardP) (st : WState)
    (h : (readVaultBody ro rl card st).1 ≠ VaultReadRes.exchangeErr) :
    ∃ d, (readVaultBody ro rl card st).2.trace = st.trace ++ d ∧ GoodDelta d := by
  obtain ⟨d1, hd1, hm1⟩ := exchangeApduW_trace 0x01 vaultAidSelectApdu st
  have hm1' : ∀ e ∈ d1, ∃ p, e = Ev.cmd 0x40 p := fun e he => ⟨_, hm1 e he⟩
  rcases h1 : exchangeApduW 0x01 vaultAidSelectApdu st with ⟨r1, st1⟩
  rw [h1] at hd1
  simp only at hd1
  simp only [readVaultBody, h1] at h ⊢
  cases r1 with
  | err => simp at h
  | ok s1 s2 p =>
    dsimp only at h ⊢
    by_cases hsw : s1 = 0x90 ∧ s2 = 0x00
    · rw [if_pos hsw] at h ⊢
      obtain ⟨d2, hd2, hm2⟩ := exchangeApduW_trace 0x01
        [0x00, 0xB0, 0x00, ro % 256, rl % 256] st1
      have hm2' : ∀ e ∈ d2, ∃ p, e = Ev.cmd 0x40 p := fun e he => ⟨_, hm2 e he⟩
      rcases h2 : exchangeApduW 0x01 [0x00, 0xB0, 0x00, ro % 256, rl % 256] st1
        with ⟨r2, st2⟩
      rw [h2] at hd2
      simp only at hd2
      cases r2 with
      | err =>
        rw [h2] at h
        simp at h
      | ok s1' s2' p' =>
        refine ⟨d1 ++ (d2 ++ [Ev.cmd 0x44 [0x00], Ev.cmd 0x16 [0xF0]]), ?_, ?_⟩
        · dsimp only
          rw [postambleW_trace, hd2, hd1]
          simp [List.append_assoc]
        · exact goodDelta_exch_front d1 _ hm1' (goodDelta_post_tail d2 hm2')
    · rw [if_neg hsw] at h ⊢
      refine ⟨d1 ++ [Ev.cmd 0x44 [0x00], Ev.cmd 0x16 [0xF0]], ?_,
        goodDelta_post_tail d1 hm1'⟩
      dsimp only
      rw [postambleW_trace, hd1, List.append_assoc]

/-- Body of `write_vault_tag`: whenever `_exchange_apdu` does not raise,
the body appends only `InDataExchange` events followed by the postamble. -/
theorem writeVaultBody_good (off : Nat) (data : List Nat) (card : CardP) (st : WState)
    (h : (writeVaultBody off data card st).1 ≠ VaultWriteRes.exchangeErr) :
    ∃ d, (writeVaultBody off data card st).2.trace = st.trace ++ d ∧ GoodDelta d := by
  obtain ⟨d1, hd1, hm1⟩ := exchangeApduW_trace 0x01 vaultAidSelectApdu st
  have hm1' : ∀ e ∈ d1, ∃ p, e = Ev.cmd 0x40 p := fun e he => ⟨_, hm1 e he⟩
  rcases h1 : exchangeApduW 0x01 vaultAidSelectApdu st with ⟨r1, st1⟩
  rw [h1] at hd1
  simp only at hd1
  simp only [writeVaultBody, h1] at h ⊢
  cases r1 with
  | err => simp at h
  | ok s1 s2 p =>
    dsimp only at h ⊢
    by_cases hsw : s1 = 0x90 ∧ s2 = 0x00
    · rw [if_pos hsw] at h ⊢
      simp only [List.cons_append, List.nil_append] at h ⊢
      obtain ⟨d2, hd2, hm2⟩ := exchangeApduW_trace 0x01
        (0x00 :: 0xD0 :: 0x00 :: off % 256 :: data.length :: data) st1
      have hm2' : ∀ e ∈ d2, ∃ p, e = Ev.cmd 0x40 p := fun e he => ⟨_, hm2 e he⟩
      rcases h2 : exchangeApduW 0x01
          (0x00 :: 0xD0 :: 0x00 :: off % 256 :: data.length :: data) st1 with ⟨r2, st2⟩
      rw [h2] at hd2
      simp only at hd2
      cases r2 with
      | err =>
        rw [h2] at h
        simp at h
      | ok s1' s2' p' =>
        refine ⟨d1 ++ (d2 ++ [Ev.cmd 0x44 [0x00], Ev.cmd 0x16 [0xF0]]), ?_, ?_⟩
        · dsimp only
          by_cases hsw2 : s1' = 0x90 ∧ s2' = 0x00
          · rw [if_pos hsw2]
            dsimp only
            rw [postambleW_trace, hd2, hd1]
            simp [List.append_assoc]
          · rw [if_neg hsw2]
            dsimp only
            rw [postambleW_trace, hd2, hd1]
            simp [List.append_assoc]
        · exact goodDelta_exch_front d1 _ hm1' (goodDelta_post_tail d2 hm2')
    · rw [if_neg hsw] at h ⊢
      refine ⟨d1 ++ [Ev.cmd 0x44 [0x00], Ev.cmd 0x16 [0xF0]], ?_,
        goodDelta_post_tail d1 hm1'⟩
      dsimp only
      rw [postambleW_trace, hd1, List.append_assoc]

/-- The bare postamble is a good extension. -/
theorem goodDelta_postamble : GoodDelta [Ev.cmd 0x44 [0x00], Ev.cmd 0x16 [0xF0]] := by
  constructor
  · intro e he
    simp only [List.mem_cons, List.not_mem_nil, or_false] at he
    rcases he with h | h <;> subst h <;> rfl
  · exact ⟨Ev.cmd 0x44 [0x00], by simp, rfl⟩

/-- Combined spec of the post-CC stage of `write_ndef_tag`: outside raised
exchange errors it appends only `InDataExchange` events plus the postamble,
and it answers write-denied exactly when CC byte 14 is nonzero, in which
case it performs only the postamble (in particular no UPDATE BINARY). -/
theorem writeNdefAfterCC_spec (msg cc : List Nat) (st : WState) :
    ((writeNdefAfterCC msg cc st).1 ≠ NdefWriteRes.exchangeErr →
      ∃ d, (writeNdefAfterCC msg cc st).2.trace = st.trace ++ d ∧ GoodDelta d) ∧
    (∀ wa, (writeNdefAfterCC msg cc st).1 = NdefWriteRes.writeDenied wa →
      (writeNdefAfterCC msg cc st).2 = postambleW st ∧
      wa = cc.getD 14 0 ∧ cc.getD 14 0 ≠ 0) := by
  simp only [writeNdefAfterCC]
  by_cases hwa : cc.getD 14 0 ≠ 0
  · rw [if_pos hwa]
    constructor
    · intro _
      exact ⟨[Ev.cmd 0x44 [0x00], Ev.cmd 0x16 [0xF0]], postambleW_trace st,
        goodDelta_postamble⟩
    · intro wa h
      simp only at h
      injection h with h'
      exact ⟨rfl, h'.symm, hwa⟩
  · rw [if_neg hwa]
    by_cases hsize : cc.getD 11 0 * 256 + cc.getD 12 0 < 2 + msg.length
    · rw [if_pos hsize]
      constructor
      · intro _
        exact ⟨[Ev.cmd 0x44 [0x00], Ev.cmd 0x16 [0xF0]], postambleW_trace st,
          goodDelta_postamble⟩
      · intro wa h
        simp at h
    · rw [if_neg hsize]
      obtain ⟨d1, hd1, hm1⟩ := exchangeApduW_trace 0x01
        [0x00, 0xA4, 0x00, 0x0C, 0x02, cc.getD 9 0, cc.getD 10 0] st
      have hm1' : ∀ e ∈ d1, ∃ p, e = Ev.cmd 0x40 p := fun e he => ⟨_, hm1 e he⟩
      rcases h1 : exchangeApduW 0x01
          [0x00, 0xA4, 0x00, 0x0C, 0x02, cc.getD 9 0, cc.getD 10 0] st with ⟨r1, st1⟩
      rw [h1] at hd1
      simp only at hd1
      cases r1 with
      | err =>
        exact ⟨fun hne => absurd rfl hne, fun wa h => by simp at h⟩
      | ok s1 s2 p =>
        dsimp only
        by_cases hsw : s1 = 0x90 ∧ s2 = 0x00
        · rw [if_neg (by simpa using hsw)]
          obtain ⟨d2, hd2, hm2⟩ := exchangeApduW_trace 0x01
            [0x00, 0xD6, 0x00, 0x00, 0x02, 0x00, 0x00] st1
          have hm2' : ∀ e ∈ d2, ∃ p, e = Ev.cmd 0x40 p := fun e he => ⟨_, hm2 e he⟩
          rcases h2 : exchangeApduW 0x01
              [0x00, 0xD6, 0x00, 0x00, 0x02, 0x00, 0x00] st1 with ⟨r2, st2⟩
          rw [h2] at hd2
          simp only at hd2
          cases r2 with
          | err =>
            exact ⟨fun hne => absurd rfl hne, fun wa h => by simp at h⟩
          | ok s1' s2' p' =>
            dsimp only
            by_cases hsw2 : s1' = 0x90 ∧ s2' = 0x00
            · rw [if_neg (by simpa using hsw2)]
              obtain ⟨d3, hd3, hm3⟩ := writeChunksW_trace (msg.length + 1)
                (min (cc.getD 5 0 * 256 + cc.getD 6 0) 52) 2 msg st2
              rcases h3 : writeChunksW (msg.length + 1)
                  (min (cc.getD 5 0 * 256 + cc.getD 6 0) 52) 2 msg st2 with ⟨r3, st3⟩
              rw [h3] at hd3
              simp only at hd3
              cases r3 with
              | err =>
                exact ⟨fun hne => absurd rfl hne, fun wa h => by simp at h⟩
              | failedSW s1'' s2'' =>
                refine ⟨fun _ => ⟨d1 ++ (d2 ++ (d3 ++
                  [Ev.cmd 0x44 [0x00], Ev.cmd 0x16 [0xF0]])), ?_, ?_⟩,
                  fun wa h => by simp at h⟩
                · dsimp only
                  rw [postambleW_trace, hd3, hd2, hd1]
                  simp [List.append_assoc]
                · exact goodDelta_exch_front d1 _ hm1'
                    (goodDelta_exch_front d2 _ hm2'
                      (goodDelta_post_tail d3 hm3))
              | done =>
                simp only [List.cons_append, List.nil_append]
                obtain ⟨d4, hd4, hm4⟩ := exchangeApduW_trace 0x01
                  (0x00 :: 0xD6 :: 0x00 :: 0x00 :: 0x02 :: pack16 msg.length) st3
                have hm4' : ∀ e ∈ d4, ∃ p, e = Ev.cmd 0x40 p := fun e he => ⟨_, hm4 e he⟩
                rcases h4 : exchangeApduW 0x01
                    (0x00 :: 0xD6 :: 0x00 :: 0x00 :: 0x02 :: pack16 msg.length) st3 with ⟨r4, st4⟩
                rw [h4] at hd4
                simp only at hd4
                cases r4 with
                | err =>
                  exact ⟨fun hne => absurd rfl hne, fun wa h => by simp at h⟩
                | ok s1''' s2''' p''' =>
                  refine ⟨fun _ => ⟨d1 ++ (d2 ++ (d3 ++ (d4 ++
                    [Ev.cmd 0x44 [0x00], Ev.cmd 0x16 [0xF0]]))), ?_, ?_⟩,
                    fun wa h => ?_⟩
                  · dsimp only
                    split
                    · rw [postambleW_trace, hd4, hd3, hd2, hd1]
                      simp [List.append_assoc]
                    · rw [postambleW_trace, hd4, hd3, hd2, hd1]
                      simp [List.append_assoc]
                  · exact goodDelta_exch_front d1 _ hm1'
                      (goodDelta_exch_front d2 _ hm2'
                        (goodDelta_exch_front d3 _ hm3
                          (goodDelta_post_tail d4 hm4')))
                  · dsimp only at h
                    split at h <;> simp at h
            · rw [if_pos (by simpa using hsw2)]
              refine ⟨fun _ => ⟨d1 ++ (d2 ++
                [Ev.cmd 0x44 [0x00], Ev.cmd 0x16 [0xF0]]), ?_, ?_⟩,
                fun wa h => by simp at h⟩
              · dsimp only
                rw [postambleW_trace, hd2, hd1]
                simp [List.append_assoc]
              · exact goodDelta_exch_front d1 _ hm1' (goodDelta_post_tail d2 hm2')
        · rw [if_pos (by simpa using hsw)]
          refine ⟨fun _ => ⟨d1 ++ [Ev.cmd 0x44 [0x00], Ev.cmd 0x16 [0xF0]], ?_, ?_⟩,
            fun wa h => by simp at h⟩
          · dsimp only
            rw [postambleW_trace, hd1, List.append_assoc]
          · exact goodDelta_post_tail d1 hm1'

/-- Combined spec of the body of `write_ndef_tag`: outside raised exchange
errors it appends only `InDataExchange` events plus the postamble, and on
the write-denied result its whole extension is free of UPDATE BINARY
(INS D6) `InDataExchange` events. -/
theorem writeNdefBody_spec (msg : List Nat) (card : CardP) (st : WState) :
    ((writeNdefBody msg card st).1 ≠ NdefWriteRes.exchangeErr →
      ∃ d, (writeNdefBody msg card st).2.trace = st.trace ++ d ∧ GoodDelta d) ∧
    (∀ wa, (writeNdefBody msg card st).1 = NdefWriteRes.writeDenied wa →
      ∃ d, (writeNdefBody msg card st).2.trace = st.trace ++ d ∧
        ∀ e ∈ d, isUpdateBinaryEv e = false) := by
  simp only [writeNdefBody]
  obtain ⟨d1, hd1, hm1⟩ := exchangeApduW_trace 0x01 ndefAidSelectApdu st
  have hm1' : ∀ e ∈ d1, ∃ p, e = Ev.cmd 0x40 p := fun e he => ⟨_, hm1 e he⟩
  rcases h1 : exchangeApduW 0x01 ndefAidSelectApdu st with ⟨r1, st1⟩
  rw [h1] at hd1
  simp only at hd1
  cases r1 with
  | err => exact ⟨fun hne => absurd rfl hne, fun wa h => by simp at h⟩
  | ok s1 s2 p =>
    dsimp only
    by_cases hsw : s1 = 0x90 ∧ s2 = 0x00
    · rw [if_neg (by simpa using hsw)]
      obtain ⟨d2, hd2, hm2⟩ := exchangeApduW_trace 0x01 selectCcApdu st1
      have hm2' : ∀ e ∈ d2, ∃ p, e = Ev.cmd 0x40 p := fun e he => ⟨_, hm2 e he⟩
      rcases h2 : exchangeApduW 0x01 selectCcApdu st1 with ⟨r2, st2⟩
      rw [h2] at hd2
      simp only at hd2
      cases r2 with
      | err => exact ⟨fun hne => absurd rfl hne, fun wa h => by simp at h⟩
      | ok s1' s2' p' =>
        dsimp only
        by_cases hsw2 : s1' = 0x90 ∧ s2' = 0x00
        · rw [if_neg (by simpa using hsw2)]
          obtain ⟨d3, hd3, hm3⟩ := exchangeApduW_trace 0x01 readCcApdu st2
          have hm3' : ∀ e ∈ d3, ∃ p, e = Ev.cmd 0x40 p := fun e he => ⟨_, hm3 e he⟩
          rcases h3 : exchangeApduW 0x01 readCcApdu st2 with ⟨r3, st3⟩
          rw [h3] at hd3
          simp only at hd3
          cases r3 with
          | err => exact ⟨fun hne => absurd rfl hne, fun wa h => by simp at h⟩
          | ok s1'' s2'' cc =>
            dsimp only
            by_cases hsw3 : s1'' = 0x90 ∧ s2'' = 0x00 ∧ 15 ≤ cc.length
            · rw [if_neg (by simpa using hsw3)]
              obtain ⟨hgood, hden⟩ := writeNdefAfterCC_spec msg cc st3
              constructor
              · intro hne
                obtain ⟨dcc, hdcc, hgd⟩ := hgood hne
                refine ⟨d1 ++ (d2 ++ (d3 ++ dcc)), ?_, ?_⟩
                · rw [hdcc, hd3, hd2, hd1]
                  simp [List.append_assoc]
                · exact goodDelta_exch_front d1 _ hm1'
                    (goodDelta_exch_front d2 _ hm2'
                      (goodDelta_exch_front d3 _ hm3' hgd))
              · intro wa h
                obtain ⟨hst, hwa, hne0⟩ := hden wa h
                refine ⟨d1 ++ (d2 ++ (d3 ++
                  [Ev.cmd 0x44 [0x00], Ev.cmd 0x16 [0xF0]])), ?_, ?_⟩
                · rw [hst, postambleW_trace, hd3, hd2, hd1]
                  simp [List.append_assoc]
                · intro e he
                  rcases List.mem_append.mp he with h' | h'
                  · rw [hm1 e h']
                    decide
                  · rcases List.mem_append.mp h' with h'' | h''
                    · rw [hm2 e h'']
                      decide
                    · rcases List.mem_append.mp h'' with h''' | h'''
                      · rw [hm3 e h''']
                        decide
                      · simp only [List.mem_cons, List.not_mem_nil, or_false] at h'''
                        rcases h''' with h4 | h4 <;> subst h4 <;> rfl
            · rw [if_pos (by simpa using hsw3)]
              refine ⟨fun _ => ⟨d1 ++ (d2 ++ (d3 ++
                [Ev.cmd 0x44 [0x00], Ev.cmd 0x16 [0xF0]])), ?_, ?_⟩,
                fun wa h => by simp at h⟩
              · dsimp only
                rw [postambleW_trace, hd3, hd2, hd1]
                simp [List.append_assoc]
              · exact goodDelta_exch_front d1 _ hm1'
                  (goodDelta_exch_front d2 _ hm2' (goodDelta_post_tail d3 hm3'))
        · rw [if_pos (by simpa using hsw2)]
          refine ⟨fun _ => ⟨d1 ++ (d2 ++
            [Ev.cmd 0x44 [0x00], Ev.cmd 0x16 [0xF0]]), ?_, ?_⟩,
            fun wa h => by simp at h⟩
          · dsimp only
            rw [postambleW_trace, hd2, hd1]
            simp [List.append_assoc]
          · exact goodDelta_exch_front d1 _ hm1' (goodDelta_post_tail d2 hm2')
    · rw [if_pos (by simpa using hsw)]
      refine ⟨fun _ => ⟨d1 ++ [Ev.cmd 0x44 [0x00], Ev.cmd 0x16 [0xF0]], ?_,
        goodDelta_post_tail d1 hm1'⟩, fun wa h => by simp at h⟩
      dsimp only
      rw [postambleW_trace, hd1, List.append_assoc]

/-- Body of `read_ndef_tag`: whenever `_exchange_apdu` does not raise, the
body appends only `InDataExchange` events followed by the postamble. -/
theorem readNdefBody_good (card : CardP) (st : WState)
    (h : (readNdefBody card st).1 ≠ NdefReadRes.exchangeErr) :
    ∃ d, (readNdefBody card st).2.trace = st.trace ++ d ∧ GoodDelta d := by
  simp only [readNdefBody] at h ⊢
  obtain ⟨d1, hd1, hm1⟩ := exchangeApduW_trace 0x01 ndefAidSelectApdu st
  have hm1' : ∀ e ∈ d1, ∃ p, e = Ev.cmd 0x40 p := fun e he => ⟨_, hm1 e he⟩
  rcases h1 : exchangeApduW 0x01 ndefAidSelectApdu st with ⟨r1, st1⟩
  rw [h1] at hd1 h
  simp only at hd1
  cases r1 with
  | err => simp at h
  | ok s1 s2 p =>
    dsimp only at h ⊢
    by_cases hsw : s1 = 0x90 ∧ s2 = 0x00
    · rw [if_neg (by simpa using hsw)] at h ⊢
      obtain ⟨d2, hd2, hm2⟩ := exchangeApduW_trace 0x01 selectCcApdu st1
      have hm2' : ∀ e ∈ d2, ∃ p, e = Ev.cmd 0x40 p := fun e he => ⟨_, hm2 e he⟩
      rcases h2 : exchangeApduW 0x01 selectCcApdu st1 with ⟨r2, st2⟩
      rw [h2] at hd2 h
      simp only at hd2
      cases r2 with
      | err => simp at h
      | ok s1' s2' p' =>
        dsimp only at h ⊢
        by_cases hsw2 : s1' = 0x90 ∧ s2' = 0x00
        · rw [if_neg (by simpa using hsw2)] at h ⊢
          obtain ⟨d3, hd3, hm3⟩ := exchangeApduW_trace 0x01 readCcApdu st2
          have hm3' : ∀ e ∈ d3, ∃ p, e = Ev.cmd 0x40 p := fun e he => ⟨_, hm3 e he⟩
          rcases h3 : exchangeApduW 0x01 readCcApdu st2 with ⟨r3, st3⟩
          rw [h3] at hd3 h
          simp only at hd3
          cases r3 with
          | err => simp at h
          | ok s1'' s2'' cc =>
            dsimp only at h ⊢
            by_cases hsw3 : s1'' = 0x90 ∧ s2'' = 0x00 ∧ 15 ≤ cc.length
            · rw [if_neg (by simpa using hsw3)] at h ⊢
              obtain ⟨d4, hd4, hm4⟩ := exchangeApduW_trace 0x01
                [0x00, 0xA4, 0x00, 0x0C, 0x02, cc.getD 9 0, cc.getD 10 0] st3
              have hm4' : ∀ e ∈ d4, ∃ p, e = Ev.cmd 0x40 p := fun e he => ⟨_, hm4 e he⟩
              rcases h4 : exchangeApduW 0x01
                  [0x00, 0xA4, 0x00, 0x0C, 0x02, cc.getD 9 0, cc.getD 10 0] st3
                with ⟨r4, st4⟩
              rw [h4] at hd4 h
              simp only at hd4
              cases r4 with
              | err => simp at h
              | ok s1''' s2''' p''' =>
                dsimp only at h ⊢
                by_cases hsw4 : s1''' = 0x90 ∧ s2''' = 0x00
                · rw [if_neg (by simpa using hsw4)] at h ⊢
                  obtain ⟨d5, hd5, hm5⟩ := exchangeApduW_trace 0x01
                    [0x00, 0xB0, 0x00, 0x00, 0x02] st4
                  have hm5' : ∀ e ∈ d5, ∃ p, e = Ev.cmd 0x40 p := fun e he => ⟨_, hm5 e he⟩
                  rcases h5 : exchangeApduW 0x01 [0x00, 0xB0, 0x00, 0x00, 0x02] st4
                    with ⟨r5, st5⟩
                  rw [h5] at hd5 h
                  simp only at hd5
                  cases r5 with
                  | err => simp at h
                  | ok s1x s2x lenData =>
                    dsimp only at h ⊢
                    by_cases hsw5 : s1x = 0x90 ∧ s2x = 0x00 ∧ 2 ≤ lenData.length
                    · rw [if_neg (by simpa using hsw5)] at h ⊢
                      by_cases hml : lenData.getD 0 0 * 256 + lenData.getD 1 0 = 0
                      · rw [if_pos hml] at h ⊢
                        refine ⟨d1 ++ (d2 ++ (d3 ++ (d4 ++ (d5 ++
                          [Ev.cmd 0x44 [0x00], Ev.cmd 0x16 [0xF0]])))), ?_, ?_⟩
                        · dsimp only
                          rw [postambleW_trace, hd5, hd4, hd3, hd2, hd1]
                          simp [List.append_assoc]
                        · exact goodDelta_exch_front d1 _ hm1'
                            (goodDelta_exch_front d2 _ hm2'
                              (goodDelta_exch_front d3 _ hm3'
                                (goodDelta_exch_front d4 _ hm4'
                                  (goodDelta_post_tail d5 hm5'))))
                      · rw [if_neg hml] at h ⊢
                        obtain ⟨d6, hd6, hm6⟩ := readChunksW_trace
                          (lenData.getD 0 0 * 256 + lenData.getD 1 0 + 1) 2
                          (lenData.getD 0 0 * 256 + lenData.getD 1 0) [] st5
                        rcases h6 : readChunksW
                            (lenData.getD 0 0 * 256 + lenData.getD 1 0 + 1) 2
                            (lenData.getD 0 0 * 256 + lenData.getD 1 0) [] st5
                          with ⟨r6, st6⟩
                        rw [h6] at hd6 h
                        simp only at hd6
                        cases r6 with
                        | err => simp at h
                        | done acc =>
                          refine ⟨d1 ++ (d2 ++ (d3 ++ (d4 ++ (d5 ++ (d6 ++
                            [Ev.cmd 0x44 [0x00], Ev.cmd 0x16 [0xF0]]))))), ?_, ?_⟩
                          · dsimp only
                            rw [postambleW_trace, hd6, hd5, hd4, hd3, hd2, hd1]
                            simp [List.append_assoc]
                          · exact goodDelta_exch_front d1 _ hm1'
                              (goodDelta_exch_front d2 _ hm2'
                                (goodDelta_exch_front d3 _ hm3'
                                  (goodDelta_exch_front d4 _ hm4'
                                    (goodDelta_exch_front d5 _ hm5'
                                      (goodDelta_post_tail d6 hm6)))))
                    · rw [if_pos (by simpa using hsw5)] at h ⊢
                      refine ⟨d1 ++ (d2 ++ (d3 ++ (d4 ++ (d5 ++
                        [Ev.cmd 0x44 [0x00], Ev.cmd 0x16 [0xF0]])))), ?_, ?_⟩
                      · dsimp only
                        rw [postambleW_trace, hd5, hd4, hd3, hd2, hd1]
                        simp [List.append_assoc]
                      · exact goodDelta_exch_front d1 _ hm1'
                          (goodDelta_exch_front d2 _ hm2'
                            (goodDelta_exch_front d3 _ hm3'
                              (goodDelta_exch_front d4 _ hm4'
                                (goodDelta_post_tail d5 hm5'))))
                · rw [if_pos (by simpa using hsw4)] at h ⊢
                  refine ⟨d1 ++ (d2 ++ (d3 ++ (d4 ++
                    [Ev.cmd 0x44 [0x00], Ev.cmd 0x16 [0xF0]]))), ?_, ?_⟩
                  · dsimp only
                    rw [postambleW_trace, hd4, hd3, hd2, hd1]
                    simp [List.append_assoc]
                  · exact goodDelta_exch_front d1 _ hm1'
                      (goodDelta_exch_front d2 _ hm2'
                        (goodDelta_exch_front d3 _ hm3'
                          (goodDelta_post_tail d4 hm4')))
            · rw [if_pos (by simpa using hsw3)] at h ⊢
              refine ⟨d1 ++ (d2 ++ (d3 ++
                [Ev.cmd 0x44 [0x00], Ev.cmd 0x16 [0xF0]])), ?_, ?_⟩
              · dsimp only
                rw [postambleW_trace, hd3, hd2, hd1]
                simp [List.append_assoc]
              · exact goodDelta_exch_front d1 _ hm1'
                  (goodDelta_exch_front d2 _ hm2' (goodDelta_post_tail d3 hm3'))
        · rw [if_pos (by simpa using hsw2)] at h ⊢
          refine ⟨d1 ++ (d2 ++ [Ev.cmd 0x44 [0x00], Ev.cmd 0x16 [0xF0]]), ?_, ?_⟩
          · dsimp only
            rw [postambleW_trace, hd2, hd1]
            simp [List.append_assoc]
          · exact goodDelta_exch_front d1 _ hm1' (goodDelta_post_tail d2 hm2')
    · rw [if_pos (by simpa using hsw)] at h ⊢
      refine ⟨d1 ++ [Ev.cmd 0x44 [0x00], Ev.cmd 0x16 [0xF0]], ?_,
        goodDelta_post_tail d1 hm1'⟩
      dsimp only
      rw [postambleW_trace, hd1, List.append_assoc]

/-- The scan workflow always pairs its `InListPassiveTarget` with a
postamble event (it has no raising APDU exchange). -/
theorem scanW_paired (script : List (Option (List Nat))) :
    pairedB (scanW ⟨script, []⟩).2.trace = true := by
  have hwake : (wakeupW ⟨script, []⟩).trace = [Ev.cmd 0x02 []] := by
    simp [wakeupW, sendCmdW_snd]
  obtain ⟨ds, hds, hms⟩ := samConfigurationW_trace (wakeupW ⟨script, []⟩)
  rw [hwake] at hds
  rcases h1 : samConfigurationW 3 (wakeupW ⟨script, []⟩) with ⟨r1, st1⟩
  rw [h1] at hds
  simp only at hds
  simp only [scanW, h1]
  have hbenA : ∀ e ∈ Ev.cmd 0x02 [] :: (ds ++
      [Ev.cmd 0x02 [], Ev.cmd 0x32 [0x05, 0xFF, 0x01, 0xFF],
        Ev.cmd 0x32 [0x02, 0x00, 0x0B, 0x0E]]), isInListEv e = false := by
    intro e he
    rcases List.mem_cons.mp he with h | h
    · subst h
      rfl
    · rcases List.mem_append.mp h with h' | h'
      · rcases hms e h' with h'' | h'' | h'' | h'' <;> subst h'' <;> rfl
      · simp only [List.mem_cons, List.not_mem_nil, or_false] at h'
        rcases h' with h'' | h'' | h'' <;> subst h'' <;> rfl
  cases r1 with
  | none =>
    dsimp only
    rw [hds]
    refine pairedB_of_no_inList _ ?_
    intro e he
    rcases List.mem_cons.mp (by simpa using he) with h | h
    · subst h
      rfl
    · rcases hms e h with h' | h' | h' | h' <;> subst h' <;> rfl
  | some x =>
    dsimp only
    rcases h2 : sendCmdW 0x4A [0x01, 0x00]
        (sendCmdW 0x32 [0x02, 0x00, 0x0B, 0x0E]
          (sendCmdW 0x32 [0x05, 0xFF, 0x01, 0xFF]
            (sendCmdW 0x02 [] st1).2).2).2 with ⟨r2, st2⟩
    have ht2 : st2.trace = (Ev.cmd 0x02 [] :: (ds ++
        [Ev.cmd 0x02 [], Ev.cmd 0x32 [0x05, 0xFF, 0x01, 0xFF],
          Ev.cmd 0x32 [0x02, 0x00, 0x0B, 0x0E]])) ++ [Ev.cmd 0x4A [0x01, 0x00]] := by
      have h := sendCmdW_snd 0x4A [0x01, 0x00]
        (sendCmdW 0x32 [0x02, 0x00, 0x0B, 0x0E]
          (sendCmdW 0x32 [0x05, 0xFF, 0x01, 0xFF]
            (sendCmdW 0x02 [] st1).2).2).2
      rw [h2] at h
      simp only at h
      rw [h]
      simp [sendCmdW_snd, hds]
    cases hparse : parse14443a r2 with
    | none =>
      dsimp only
      rw [sendCmdW_snd]
      simp only [ht2]
      rw [List.append_assoc]
      simp only [List.singleton_append]
      exact pairedB_decomp (Ev.cmd 0x02 [] :: (ds ++
          [Ev.cmd 0x02 [], Ev.cmd 0x32 [0x05, 0xFF, 0x01, 0xFF],
            Ev.cmd 0x32 [0x02, 0x00, 0x0B, 0x0E]])) [Ev.cmd 0x16 [0xF0]] hbenA
        (fun e he => by simp only [List.mem_singleton] at he; subst he; rfl)
        ⟨Ev.cmd 0x16 [0xF0], by simp, rfl⟩
    | some card =>
      dsimp only
      rw [sendCmdW_snd, sendCmdW_snd]
      simp only [ht2]
      rw [List.append_assoc, List.append_assoc]
      simp only [List.singleton_append, List.cons_append, List.nil_append]
      exact pairedB_decomp (Ev.cmd 0x02 [] :: (ds ++
          [Ev.cmd 0x02 [], Ev.cmd 0x32 [0x05, 0xFF, 0x01, 0xFF],
            Ev.cmd 0x32 [0x02, 0x00, 0x0B, 0x0E]]))
        [Ev.cmd 0x44 [0x00], Ev.cmd 0x16 [0xF0]] hbenA
        (fun e he => by
          simp only [List.mem_cons, List.not_mem_nil, or_false] at he
          rcases he with h | h <;> subst h <;> rfl)
        ⟨Ev.cmd 0x44 [0x00], by simp, rfl⟩

set_option maxRecDepth 16384 in
/-- Counterexample to C3 as stated: a concrete run of `read_vault_tag` in
which the card is detected (`InListPassiveTarget` succeeds and appears in
the trace) but the SELECT exchange gets no response, so `_exchange_apdu`
raises and the generic handler returns with neither `InRelease` nor
`PowerDown` after the listing. -/
theorem c3_pairing_counterexample :
    (readVaultTagW 0 64 ⟨[none, some [0xD5, 0x15], some [], some [],
        some [0xD5, 0x4B, 0x01, 0x01, 0x00, 0x04, 0x08, 0x04, 0xAA, 0xBB, 0xCC, 0xDD],
        none], []⟩).1 = VaultReadRes.exchangeErr ∧
    (readVaultTagW 0 64 ⟨[none, some [0xD5, 0x15], some [], some [],
        some [0xD5, 0x4B, 0x01, 0x01, 0x00, 0x04, 0x08, 0x04, 0xAA, 0xBB, 0xCC, 0xDD],
        none], []⟩).2.trace.any isInListEv = true ∧
    pairedB (readVaultTagW 0 64 ⟨[none, some [0xD5, 0x15], some [], some [],
        some [0xD5, 0x4B, 0x01, 0x01, 0x00, 0x04, 0x08, 0x04, 0xAA, 0xBB, 0xCC, 0xDD],
        none], []⟩).2.trace = false := by
  refine ⟨by decide, by decide, by decide⟩

/-- C3 (amended): in `scan_type_a` every `InListPassiveTarget` call is
followed by `InRelease` or `PowerDown` before the workflow returns,
unconditionally; in `read_vault_tag`, `write_vault_tag` (for data of
length at most 255) and `read_ndef_tag`, `write_ndef_tag` (for messages
of length at most 65535) the same holds on every path except those where
`_exchange_apdu` raises (no response, non-zero status after retry, or
short response after retry), on which the workflow returns without
`InRelease` or `PowerDown`.  Longer write data or messages are excluded
by hypothesis: on them the source raises `ValueError` at the
`bytes([...])` APDU build or `struct.error` at `struct.pack(">H", ...)`,
further generic-exception paths that also skip the postamble. -/
theorem c3_inlist_paired (script : List (Option (List Nat))) (ro rl off : Nat)
    (data msg : List Nat) (hdata : data.length ≤ 255) (hmsg : msg.length ≤ 65535) :
    pairedB (scanW ⟨script, []⟩).2.trace = true ∧
    ((readVaultTagW ro rl ⟨script, []⟩).1 ≠ VaultReadRes.exchangeErr →
      pairedB (readVaultTagW ro rl ⟨script, []⟩).2.trace = true) ∧
    ((writeVaultTagW off data ⟨script, []⟩).1 ≠ VaultWriteRes.exchangeErr →
      pairedB (writeVaultTagW off data ⟨script, []⟩).2.trace = true) ∧
    ((readNdefTagW ⟨script, []⟩).1 ≠ NdefReadRes.exchangeErr →
      pairedB (readNdefTagW ⟨script, []⟩).2.trace = true) ∧
    ((writeNdefTagW msg ⟨script, []⟩).1 ≠ NdefWriteRes.exchangeErr →
      pairedB (writeNdefTagW msg ⟨script, []⟩).2.trace = true) := by
  refine ⟨scanW_paired script, ?_, ?_, ?_, ?_⟩
  · intro h
    simp only [readVaultTagW] at h ⊢
    exact preambleThen_paired _ _ _ (fun x => x = VaultReadRes.exchangeErr)
      (fun card st hb => readVaultBody_good ro rl card st hb) script h
  · intro h
    simp only [writeVaultTagW] at h ⊢
    exact preambleThen_paired _ _ _ (fun x => x = VaultWriteRes.exchangeErr)
      (fun card st hb => writeVaultBody_good off data card st hb) script h
  · intro h
    simp only [readNdefTagW] at h ⊢
    exact preambleThen_paired _ _ _ (fun x => x = NdefReadRes.exchangeErr)
      (fun card st hb => readNdefBody_good card st hb) script h
  · intro h
    simp only [writeNdefTagW] at h ⊢
    exact preambleThen_paired _ _ _ (fun x => x = NdefWriteRes.exchangeErr)
      (fun card st hb => (writeNdefBody_spec msg card st).1 hb) script h

set_option maxRecDepth 16384 in
/-- Witness for C3 (amended): with an empty script and empty (in-range)
write data and message, every workflow fails at SAMConfiguration, which is
not a raised exchange error, and the pairing check holds on the resulting
traces. -/
theorem c3_inlist_paired_witness :
    ((readVaultTagW 0 64 ⟨[], []⟩).1 ≠ VaultReadRes.exchangeErr ∧
      pairedB (readVaultTagW 0 64 ⟨[], []⟩).2.trace = true) ∧
    ((writeVaultTagW 0 [] ⟨[], []⟩).1 ≠ VaultWriteRes.exchangeErr ∧
      pairedB (writeVaultTagW 0 [] ⟨[], []⟩).2.trace = true) ∧
    ((readNdefTagW ⟨[], []⟩).1 ≠ NdefReadRes.exchangeErr ∧
      pairedB (readNdefTagW ⟨[], []⟩).2.trace = true) ∧
    ((writeNdefTagW [] ⟨[], []⟩).1 ≠ NdefWriteRes.exchangeErr ∧
      pairedB (writeNdefTagW [] ⟨[], []⟩).2.trace = true) :=
  ⟨⟨by decide, (c3_inlist_paired [] 0 64 0 [] [] (by decide) (by decide)).2.1 (by decide)⟩,
   ⟨by decide, (c3_inlist_paired [] 0 64 0 [] [] (by decide) (by decide)).2.2.1 (by decide)⟩,
   ⟨by decide,
     (c3_inlist_paired [] 0 64 0 [] [] (by decide) (by decide)).2.2.2.1 (by decide)⟩,
   ⟨by decide,
     (c3_inlist_paired [] 0 64 0 [] [] (by decide) (by decide)).2.2.2.2 (by decide)⟩⟩

/-- C8: whenever `write_ndef_tag` returns the write-access-denied error,
its whole command trace contains no UPDATE BINARY (INS D6) APDU; and the
post-CC stage returns exactly that error (performing only the postamble)
whenever CC byte 14 is nonzero. -/
theorem c8_write_denied_no_update (msg : List Nat) (script : List (Option (List Nat))) :
    (∀ wa, (writeNdefTagW msg ⟨script, []⟩).1 = NdefWriteRes.writeDenied wa →
      (writeNdefTagW msg ⟨script, []⟩).2.trace.all (fun e => !isUpdateBinaryEv e) = true) ∧
    (∀ cc st', cc.getD 14 0 ≠ 0 →
      (writeNdefAfterCC msg cc st').1 = NdefWriteRes.writeDenied (cc.getD 14 0) ∧
      (writeNdefAfterCC msg cc st').2 = postambleW st') := by
  constructor
  · intro wa h
    simp only [writeNdefTagW] at h ⊢
    rcases preambleThen_cases NdefWriteRes.samFailed NdefWriteRes.noCard
        (writeNdefBody msg) ⟨script, []⟩ with
      ⟨d, heq, htr, hben⟩ | ⟨A, st', heq, htr, hben⟩ | ⟨card, stb, A, heq, htr, hben⟩
    · rw [heq] at h
      simp at h
    · rw [heq] at h
      simp at h
    · rw [heq] at h ⊢
      obtain ⟨d, hd, hupd⟩ := (writeNdefBody_spec msg card stb).2 wa h
      rw [List.all_eq_true]
      intro e he
      rw [hd, htr] at he
      simp only [List.append_assoc, List.nil_append, List.mem_append,
        List.mem_singleton, List.mem_cons, List.not_mem_nil, or_false] at he
      rcases he with h' | h' | h'
      · simp [(hben e h').2]
      · subst h'
        rfl
      · simp [hupd e h']
  · intro cc st' hcc
    simp only [writeNdefAfterCC]
    rw [if_pos hcc]
    exact ⟨rfl, rfl⟩

set_option maxRecDepth 16384 in
/-- Witness for C8: a script whose CC read returns write-access byte `FF`;
the workflow answers write-denied and its trace carries no INS-D6 APDU, and
the post-CC stage applied to that CC answers write-denied directly. -/
theorem c8_write_denied_no_update_witness :
    ((writeNdefTagW [0x01] ⟨[none, some [0xD5, 0x15], some [], some [],
        some [0xD5, 0x4B, 0x01, 0x01, 0x00, 0x04, 0x08, 0x04, 0xAA, 0xBB, 0xCC, 0xDD],
        some [0xD5, 0x41, 0x00, 0x90, 0x00],
        some [0xD5, 0x41, 0x00, 0x90, 0x00],
        some [0xD5, 0x41, 0x00, 0x00, 0x0F, 0x20, 0x00, 0x3B, 0x00, 0x34, 0x04,
          0x06, 0xE1, 0x04, 0x00, 0x33, 0x00, 0xFF, 0x90, 0x00]], []⟩).1 =
      NdefWriteRes.writeDenied 0xFF ∧
      (writeNdefTagW [0x01] ⟨[none, some [0xD5, 0x15], some [], some [],
        some [0xD5, 0x4B, 0x01, 0x01, 0x00, 0x04, 0x08, 0x04, 0xAA, 0xBB, 0xCC, 0xDD],
        some [0xD5, 0x41, 0x00, 0x90, 0x00],
        some [0xD5, 0x41, 0x00, 0x90, 0x00],
        some [0xD5, 0x41, 0x00, 0x00, 0x0F, 0x20, 0x00, 0x3B, 0x00, 0x34, 0x04,
          0x06, 0xE1, 0x04, 0x00, 0x33, 0x00, 0xFF, 0x90, 0x00]], []⟩).2.trace.all
        (fun e => !isUpdateBinaryEv e) = true) ∧
    (([0x00, 0x0F, 0x20, 0x00, 0x3B, 0x00, 0x34, 0x04, 0x06, 0xE1, 0x04, 0x00,
        0x33, 0x00, 0xFF] : List Nat).getD 14 0 ≠ 0 ∧
      (writeNdefAfterCC [0x01] [0x00, 0x0F, 0x20, 0x00, 0x3B, 0x00, 0x34, 0x04,
        0x06, 0xE1, 0x04, 0x00, 0x33, 0x00, 0xFF] ⟨[], []⟩).1 =
        NdefWriteRes.writeDenied (([0x00, 0x0F, 0x20, 0x00, 0x3B, 0x00, 0x34, 0x04,
          0x06, 0xE1, 0x04, 0x00, 0x33, 0x00, 0xFF] : List Nat).getD 14 0) ∧
      (writeNdefAfterCC [0x01] [0x00, 0x0F, 0x20, 0x00, 0x3B, 0x00, 0x34, 0x04,
        0x06, 0xE1, 0x04, 0x00, 0x33, 0x00, 0xFF] ⟨[], []⟩).2 = postambleW ⟨[], []⟩) :=
  ⟨⟨by decide,
    (c8_write_denied_no_update [0x01] [none, some [0xD5, 0x15], some [], some [],
        some [0xD5, 0x4B, 0x01, 0x01, 0x00, 0x04, 0x08, 0x04, 0xAA, 0xBB, 0xCC, 0xDD],
        some [0xD5, 0x41, 0x00, 0x90, 0x00],
        some [0xD5, 0x41, 0x00, 0x90, 0x00],
        some [0xD5, 0x41, 0x00, 0x00, 0x0F, 0x20, 0x00, 0x3B, 0x00, 0x34, 0x04,
          0x06, 0xE1, 0x04, 0x00, 0x33, 0x00, 0xFF, 0x90, 0x00]]).1 0xFF (by decide)⟩,
   ⟨by decide,
    ((c8_write_denied_no_update [0x01] []).2 [0x00, 0x0F, 0x20, 0x00, 0x3B, 0x00,
      0x34, 0x04, 0x06, 0xE1, 0x04, 0x00, 0x33, 0x00, 0xFF] ⟨[], []⟩ (by decide)).1,
    ((c8_write_denied_no_update [0x01] []).2 [0x00, 0x0F, 0x20, 0x00, 0x3B, 0x00,
      0x34, 0x04, 0x06, 0xE1, 0x04, 0x00, 0x33, 0x00, 0xFF] ⟨[], []⟩ (by decide)).2⟩⟩
